import Mathlib

/-!
Formal model of the Dragon 32 bare-metal emulator (MC6809E CPU core,
memory fabric, VDG video-mode composition and PIA keyboard logic),
shallowly embedded from the C sources.

Conventions of the embedding:
* machine integers are `Nat` with explicit truncation (`% 256`, `% 65536`)
  at the points where the C code casts to `uint8_t` / `uint16_t`;
* the memory fabric is modelled in its post-`mem_init` configuration in
  which every cell's `io_handler` is `do_nothing_io_handler`, so reads and
  writes never invoke a callback (`mem_read` / `mem_write` skip the
  callback exactly when the handler is the do-nothing one);
* condition-code flags are `Bool` (the C code only ever stores
  `CC_FLAG_SET` = 1 or `CC_FLAG_CLR` = 0 in them);
* instruction cycle counting (`cycles`, `bytes` bookkeeping) and the
  diagnostic fields `exception_line_num`, `last_opcode_bytes`,
  `last_opcode_cycles`, `int_latch` do not influence the machine state
  transitions modelled here and are omitted.
-/

namespace Dragon

/-- Memory attribute of a cell (`memory_flag_t` in mem.h):
RAM, ROM, or a memory-mapped IO device. -/
inductive MemType where
  | ram : MemType
  | rom : MemType
  | iodev : MemType
deriving DecidableEq, Repr

/-- One cell of the 64K memory fabric (`memory_t`): a data byte and the
memory attribute.  The `io_handler` member is fixed at the do-nothing
handler (see module header). -/
structure memory_t where
  data_byte : Nat
  memory_type : MemType
deriving DecidableEq, Repr

/-- The memory fabric: address (a `Nat`; only 0..65535 are ever addressed
in range) to cell. -/
def Mem : Type := Nat → memory_t

/-- `MEMORY` from mem.h: 64K bytes. -/
def MEMORY : Nat := 65536

/-- Error code returned for an out-of-range address. -/
def MEM_ADD_RANGE : Int := -1

/-- Error code returned for a write to ROM. -/
def MEM_ROM : Int := -2

/-- Success code. -/
def MEM_OK : Int := 0

/-- `mem_read()` from the memory module: out-of-range addresses return
`MEM_ADD_RANGE` (-1); in-range addresses return the cell's data byte
(the do-nothing IO callback is never invoked). -/
def mem_read (m : Mem) (address : Int) : Int :=
  if address < 0 ∨ address > (MEMORY - 1 : Int) then MEM_ADD_RANGE
  else ((m address.toNat).data_byte : Int)

/-- `mem_write()` from the memory module: out-of-range addresses return
`MEM_ADD_RANGE` leaving memory unchanged; ROM cells return `MEM_ROM`
leaving memory unchanged; otherwise the low byte of the data is stored
(the C code stores `(uint8_t) data`) and `MEM_OK` is returned. -/
def mem_write (m : Mem) (address data : Int) : Mem × Int :=
  if address < 0 ∨ address > (MEMORY - 1 : Int) then (m, MEM_ADD_RANGE)
  else if (m address.toNat).memory_type = MemType.rom then (m, MEM_ROM)
  else
    (fun x => if x = address.toNat then
                { m address.toNat with data_byte := (data.emod 256).toNat }
              else m x,
     MEM_OK)

/-- Memory well-formedness: every cell holds a byte value.  In C this is
enforced by `data_byte` having type `uint8_t`. -/
def MemWF (m : Mem) : Prop := ∀ a : Nat, (m a).data_byte < 256

/-- All-zero RAM memory (the state `mem_init()` produces). -/
def memZero : Mem := fun _ => { data_byte := 0, memory_type := MemType.ram }

end Dragon

namespace Dragon

/-! ### VDG video-mode composition (vdg.c) -/

/-- `video_mode_t` from vdg.c. -/
inductive video_mode_t where
  | ALPHA_INTERNAL
  | ALPHA_EXTERNAL
  | SEMI_GRAPHICS_4
  | SEMI_GRAPHICS_6
  | SEMI_GRAPHICS_8
  | SEMI_GRAPHICS_12
  | SEMI_GRAPHICS_24
  | GRAPHICS_1C
  | GRAPHICS_1R
  | GRAPHICS_2C
  | GRAPHICS_2R
  | GRAPHICS_3C
  | GRAPHICS_3R
  | GRAPHICS_6C
  | GRAPHICS_6R
  | DMA
  | UNDEFINED
deriving DecidableEq, Repr

open video_mode_t

/-- `vdg_get_mode()` from vdg.c, as a function of the globals
`sam_video_mode` (3 bits) and `pia_video_mode` (5 bits).  The final
`else` branch of the C code calls `rpi_halt()` and never returns; it is
modelled as `none` (it is in fact unreachable, since the two tests
`pia_video_mode & 0x10` and `(pia_video_mode & 0x10) == 0` are
exhaustive). -/
def vdg_get_mode (sam_video_mode pia_video_mode : Nat) : Option video_mode_t :=
  if sam_video_mode = 7 then
    some DMA
  else if pia_video_mode &&& 0x10 ≠ 0 then
    some (if pia_video_mode &&& 0x0e = 0x00 then GRAPHICS_1C
          else if pia_video_mode &&& 0x0e = 0x02 then GRAPHICS_1R
          else if pia_video_mode &&& 0x0e = 0x04 then GRAPHICS_2C
          else if pia_video_mode &&& 0x0e = 0x06 then GRAPHICS_2R
          else if pia_video_mode &&& 0x0e = 0x08 then GRAPHICS_3C
          else if pia_video_mode &&& 0x0e = 0x0a then GRAPHICS_3R
          else if pia_video_mode &&& 0x0e = 0x0c then GRAPHICS_6C
          else GRAPHICS_6R)
  else if pia_video_mode &&& 0x10 = 0 then
    some (if sam_video_mode = 0 ∧ pia_video_mode &&& 0x02 = 0 then ALPHA_INTERNAL
          else if sam_video_mode = 0 ∧ pia_video_mode &&& 0x02 ≠ 0 then ALPHA_EXTERNAL
          else if sam_video_mode = 2 ∧ pia_video_mode &&& 0x02 = 0 then SEMI_GRAPHICS_8
          else if sam_video_mode = 4 ∧ pia_video_mode &&& 0x02 = 0 then SEMI_GRAPHICS_12
          else if sam_video_mode = 4 ∧ pia_video_mode &&& 0x02 = 0 then SEMI_GRAPHICS_24
          else UNDEFINED)
  else
    none

end Dragon

namespace Dragon

/-! ### MC6809E CPU core (cpu.c) -/

/-- `cpu_run_state_t` from cpu.h. -/
inductive cpu_run_state_t where
  | NOT_DEFINED
  | CPU_EXEC
  | CPU_HALTED
  | CPU_SYNC
  | CPU_RESET
  | CPU_EXCEPTION
deriving DecidableEq, Repr

open cpu_run_state_t

/-- The condition-code register, `struct cc_t` in cpu.c.  The C fields are
`int` but only ever hold `CC_FLAG_SET` (1) or `CC_FLAG_CLR` (0). -/
structure cc_t where
  c : Bool
  v : Bool
  z : Bool
  n : Bool
  i : Bool
  h : Bool
  f : Bool
  e : Bool
deriving DecidableEq, Repr

/-- `get_cc()`: pack the flags into one byte,
`(e<<7)+(f<<6)+(h<<5)+(i<<4)+(n<<3)+(z<<2)+(v<<1)+c`. -/
def get_cc (cc : cc_t) : Nat :=
  (cc.e.toNat <<< 7) + (cc.f.toNat <<< 6) + (cc.h.toNat <<< 5) + (cc.i.toNat <<< 4) +
  (cc.n.toNat <<< 3) + (cc.z.toNat <<< 2) + (cc.v.toNat <<< 1) + cc.c.toNat

/-- `set_cc()`: unpack a byte into the flags. -/
def set_cc (value : Nat) : cc_t :=
  { c := value &&& 0x01 ≠ 0
    v := value &&& 0x02 ≠ 0
    z := value &&& 0x04 ≠ 0
    n := value &&& 0x08 ≠ 0
    i := value &&& 0x10 ≠ 0
    h := value &&& 0x20 ≠ 0
    f := value &&& 0x40 ≠ 0
    e := value &&& 0x80 ≠ 0 }

/-- The CPU register file and line latches, `cpu_state_t` in cpu.h
(diagnostic-only fields omitted, see module header).  16-bit registers
hold values `< 65536` and 8-bit registers values `< 256` (see `CpuWF`). -/
structure cpu_state_t where
  cpu_state : cpu_run_state_t
  last_pc : Nat
  x : Nat
  y : Nat
  u : Nat
  s : Nat
  pc : Nat
  a : Nat
  b : Nat
  dp : Nat
  nmi_armed : Bool
  nmi_latched : Bool
  halt_asserted : Bool
  reset_asserted : Bool
  irq_asserted : Bool
  firq_asserted : Bool
deriving DecidableEq, Repr

/-- Whole-machine state: the two cpu.c module globals `cpu` and `cc`, plus
the memory fabric. -/
structure Machine where
  cpu : cpu_state_t
  cc : cc_t
  mem : Mem

/-- Register-file well-formedness, enforced in C by the `uint16_t` /
`uint8_t` field types. -/
def CpuWF (c : cpu_state_t) : Prop :=
  c.x < 65536 ∧ c.y < 65536 ∧ c.u < 65536 ∧ c.s < 65536 ∧ c.pc < 65536 ∧
  c.a < 256 ∧ c.b < 256 ∧ c.dp < 256

/-- MC6809E vector addresses (cpu.c). -/
def VEC_RESET : Nat := 0xfffe

/-- NMI vector address. -/
def VEC_NMI : Nat := 0xfffc

/-- IRQ vector address. -/
def VEC_IRQ : Nat := 0xfff8

/-- FIRQ vector address. -/
def VEC_FIRQ : Nat := 0xfff6

/-- An in-range `mem_read` as used by the CPU core: the CPU only ever
passes `uint16_t` addresses, which are always in range, so the call
returns the cell's data byte (lemma `mem_read_in_range`). -/
def rdByte (m : Mem) (a : Nat) : Nat := (m a).data_byte

/-- An in-range `mem_read` whose result the C code converts to `uint8_t`
(e.g. `operand8 = (uint8_t) mem_read(...)`). -/
def rd8 (m : Mem) (a : Nat) : Nat := (m a).data_byte % 256

/-- An in-range `mem_write` as used by the CPU core: the status code is
discarded by the CPU, a ROM cell is left unchanged, otherwise the low
byte of the data is stored (lemma `mem_write_in_range`). -/
def wrByte (m : Mem) (a d : Nat) : Mem :=
  if (m a).memory_type = MemType.rom then m
  else fun x => if x = a then { m a with data_byte := d % 256 } else m x

/-- 16-bit decrement with wrap-around (`cpu.s--` on a `uint16_t`). -/
def dec16 (w : Nat) : Nat := (w + 65535) % 65536

/-- 16-bit increment with wrap-around (`cpu.s++` on a `uint16_t`). -/
def inc16 (w : Nat) : Nat := (w + 1) % 65536

/-- One `cpu.s--; mem_write(cpu.s, d);` step of a stack push. -/
def push_byte (M : Machine) (d : Nat) : Machine :=
  let s1 := dec16 M.cpu.s
  { M with cpu := { M.cpu with s := s1 }, mem := wrByte M.mem s1 d }

/-- A sequence of stack pushes, first list element pushed first. -/
def push_list (M : Machine) (ds : List Nat) : Machine := ds.foldl push_byte M

/-- The entire-machine-state push sequence shared verbatim by the NMI and
IRQ service code in `cpu_run()` and by `cwai()`: PC low, PC high, U low,
U high, Y low, Y high, X low, X high, DP, B, A, and finally the packed
condition-code byte `ccval`. -/
def push_all_registers (M : Machine) (ccval : Nat) : Machine :=
  push_list M
    [ M.cpu.pc &&& 0xff, (M.cpu.pc >>> 8) &&& 0xff,
      M.cpu.u &&& 0xff, (M.cpu.u >>> 8) &&& 0xff,
      M.cpu.y &&& 0xff, (M.cpu.y >>> 8) &&& 0xff,
      M.cpu.x &&& 0xff, (M.cpu.x >>> 8) &&& 0xff,
      M.cpu.dp, M.cpu.b, M.cpu.a, ccval ]

/-- Read a 16-bit big-endian vector: `(mem_read(v) << 8) + mem_read(v+1)`
assigned to the `uint16_t` program counter. -/
def read_vector (m : Mem) (v : Nat) : Nat :=
  ((rdByte m v <<< 8) + rdByte m (v + 1)) % 65536

end Dragon

namespace Dragon

open cpu_run_state_t

/-! ### Interrupt and reset servicing inside `cpu_run()` -/

/-- The RESET branch at the top of `cpu_run()`: set F and I, drop DP,
disarm NMI, enter `CPU_RESET`, load PC from the vector at 0xFFFE/F and
record it in `last_pc`. -/
def reset_service (M : Machine) : Machine :=
  let pc1 := read_vector M.mem VEC_RESET
  { M with
    cc := { M.cc with f := true, i := true },
    cpu := { M.cpu with dp := 0, nmi_armed := false, nmi_latched := false,
                        cpu_state := CPU_RESET, pc := pc1, last_pc := pc1 } }

/-- The NMI service branch of `cpu_run()`: enter `CPU_EXEC`, set E, push
the entire register frame, clear the NMI latch, set F and I, and load PC
from the vector at 0xFFFC/D. -/
def nmi_service (M : Machine) : Machine :=
  let M1 := { M with cpu := { M.cpu with cpu_state := CPU_EXEC },
                     cc := { M.cc with e := true } }
  let M2 := push_all_registers M1 (get_cc M1.cc)
  let M3 := { M2 with cpu := { M2.cpu with nmi_latched := false },
                      cc := { M2.cc with f := true, i := true } }
  { M3 with cpu := { M3.cpu with pc := read_vector M3.mem VEC_NMI } }

/-- The FIRQ service branch of `cpu_run()`: enter `CPU_EXEC`, clear E,
push only PC and CC, set F and I, and load PC from the vector at
0xFFF6/7. -/
def firq_service (M : Machine) : Machine :=
  let M1 := { M with cpu := { M.cpu with cpu_state := CPU_EXEC },
                     cc := { M.cc with e := false } }
  let M2 := push_list M1
      [ M1.cpu.pc &&& 0xff, (M1.cpu.pc >>> 8) &&& 0xff, get_cc M1.cc ]
  let M3 := { M2 with cc := { M2.cc with f := true, i := true } }
  { M3 with cpu := { M3.cpu with pc := read_vector M3.mem VEC_FIRQ } }

/-- The IRQ service branch of `cpu_run()`: enter `CPU_EXEC`, set E, push
the entire register frame, set I (F is left untouched), and load PC from
the vector at 0xFFF8/9. -/
def irq_service (M : Machine) : Machine :=
  let M1 := { M with cpu := { M.cpu with cpu_state := CPU_EXEC },
                     cc := { M.cc with e := true } }
  let M2 := push_all_registers M1 (get_cc M1.cc)
  let M3 := { M2 with cc := { M2.cc with i := true } }
  { M3 with cpu := { M3.cpu with pc := read_vector M3.mem VEC_IRQ } }

/-- The interrupt latch-and-dispatch cascade of `cpu_run()`: an armed
latched NMI is serviced first, else an unmasked asserted FIRQ, else an
unmasked asserted IRQ; otherwise the machine is unchanged. -/
def interrupt_check (M : Machine) : Machine :=
  if M.cpu.nmi_armed ∧ M.cpu.nmi_latched then nmi_service M
  else if (¬ M.cc.f) ∧ M.cpu.firq_asserted then firq_service M
  else if (¬ M.cc.i) ∧ M.cpu.irq_asserted then irq_service M
  else M

/-! ### The op-code implementations the claims refer to -/

/-- `daa()` from cpu.c: decimal adjust of accumulator A, as a function of
A and the flags.  Note the two independent `+ 0x60` conditions, both
computed from the nibbles of the original A. -/
def daa_fn (a : Nat) (cc : cc_t) : Nat × cc_t :=
  let high_nibble := a &&& 0xf0
  let low_nibble := a &&& 0x0f
  let t1 := if low_nibble > 0x09 ∨ cc.h then a + 0x06 else a
  let t2 := if high_nibble > 0x80 ∧ low_nibble > 0x09 then t1 + 0x60 else t1
  let t3 := if high_nibble > 0x90 ∨ cc.c then t2 + 0x60 else t2
  (t3 % 256,
   { cc with c := t3 &&& 0x100 ≠ 0
             z := t3 &&& 0xff = 0
             n := t3 &&& 0x80 ≠ 0
             v := false })

/-- The MUL case (op-code 0x3d) of `cpu_run()`: D ← A*B, Z from the full
16-bit product (`eval_cc_z16`), C from bit 8 of the product
(`eval_cc_c` tests `value & 0x100`). -/
def mul_fn (a b : Nat) (cc : cc_t) : Nat × Nat × cc_t :=
  let operand16 := (a * b) % 65536
  ((operand16 >>> 8) % 256, operand16 % 256,
   { cc with z := operand16 &&& 0xffff = 0
             c := operand16 &&& 0x100 ≠ 0 })

/-- `cwai()` from cpu.c: AND CC with the operand byte, force E, store the
result into CC, push the entire register frame (with that same CC byte),
and enter `CPU_SYNC`. -/
def cwai_fn (M : Machine) (byte : Nat) : Machine :=
  let temp_cc := ((get_cc M.cc) &&& byte) ||| 0x80
  let M1 := { M with cc := set_cc temp_cc }
  let M2 := push_all_registers M1 temp_cc
  { M2 with cpu := { M2.cpu with cpu_state := CPU_SYNC } }

/-- `rti()` from cpu.c: pop CC; if the restored E flag is set, pop A, B,
DP, X, Y, U as well; finally pop PC. -/
def rti_fn (M : Machine) : Machine :=
  let cc1 := set_cc (rd8 M.mem M.cpu.s)
  let s1 := inc16 M.cpu.s
  let M1 := { M with cc := cc1, cpu := { M.cpu with s := s1 } }
  let M2 :=
    if cc1.e then
      let a1 := rd8 M1.mem M1.cpu.s
      let s2 := inc16 M1.cpu.s
      let b1 := rd8 M1.mem s2
      let s3 := inc16 s2
      let dp1 := rd8 M1.mem s3
      let s4 := inc16 s3
      let xh := (rdByte M1.mem s4 <<< 8) % 65536
      let s5 := inc16 s4
      let x1 := (xh + rdByte M1.mem s5) % 65536
      let s6 := inc16 s5
      let yh := (rdByte M1.mem s6 <<< 8) % 65536
      let s7 := inc16 s6
      let y1 := (yh + rdByte M1.mem s7) % 65536
      let s8 := inc16 s7
      let uh := (rdByte M1.mem s8 <<< 8) % 65536
      let s9 := inc16 s8
      let u1 := (uh + rdByte M1.mem s9) % 65536
      let s10 := inc16 s9
      { M1 with cpu := { M1.cpu with a := a1, b := b1, dp := dp1,
                                     x := x1, y := y1, u := u1, s := s10 } }
    else M1
  let pch := (rd8 M2.mem M2.cpu.s <<< 8) % 65536
  let sA := inc16 M2.cpu.s
  let pc1 := (pch + rd8 M2.mem sA) % 65536
  let sB := inc16 sA
  { M2 with cpu := { M2.cpu with pc := pc1, s := sB } }

/-- The op-code fetch and dispatch of `cpu_run()`, modelled for the
op-codes the claims exercise: NOP (0x12), SYNC (0x13), DAA (0x19), RTI
(0x3b), CWAI (0x3c) and MUL (0x3d); all of these use `ADDR_INHERENT`
addressing, for which `get_eff_addr()` leaves PC untouched and returns
effective address 0 (consequently CWAI reads its operand byte from
address 0).  Other op-codes are not modelled: `none`. -/
def fetch_exec (M : Machine) : Option Machine :=
  let op := rdByte M.mem M.cpu.pc
  let M1 := { M with cpu := { M.cpu with pc := (M.cpu.pc + 1) % 65536 } }
  if op = 0x12 then some M1
  else if op = 0x13 then
    some { M1 with cpu := { M1.cpu with cpu_state := CPU_SYNC } }
  else if op = 0x19 then
    let r := daa_fn M1.cpu.a M1.cc
    some { M1 with cpu := { M1.cpu with a := r.1 }, cc := r.2 }
  else if op = 0x3b then some (rti_fn M1)
  else if op = 0x3c then some (cwai_fn M1 (rd8 M1.mem 0))
  else if op = 0x3d then
    let r := mul_fn M1.cpu.a M1.cpu.b M1.cc
    some { M1 with cpu := { M1.cpu with a := r.1, b := r.2.1 }, cc := r.2.2 }
  else none

/-- One invocation of `cpu_run()` ("one step"): service a latched reset,
else record `last_pc`, honour HALT, run the interrupt cascade, stay put
when (still) in `CPU_SYNC`, otherwise force `CPU_EXEC` and fetch/execute
one instruction.  `none` when execution reaches an op-code outside the
modelled set. -/
def cpu_step (M : Machine) : Option Machine :=
  if M.cpu.reset_asserted then some (reset_service M)
  else
    let M1 := { M with cpu := { M.cpu with last_pc := M.cpu.pc } }
    if M1.cpu.halt_asserted then
      some { M1 with cpu := { M1.cpu with cpu_state := CPU_HALTED } }
    else
      let M2 := interrupt_check M1
      if M2.cpu.cpu_state = CPU_SYNC then some M2
      else fetch_exec { M2 with cpu := { M2.cpu with cpu_state := CPU_EXEC } }

/-- `cpu_irq()`: set or clear the level-driven IRQ line. -/
def cpu_irq (state : Bool) (M : Machine) : Machine :=
  { M with cpu := { M.cpu with irq_asserted := state } }

/-- `cpu_reset()`: set or clear the reset latch. -/
def cpu_reset (state : Bool) (M : Machine) : Machine :=
  { M with cpu := { M.cpu with reset_asserted := state } }

end Dragon

namespace Dragon

/-! ### PIA keyboard logic (pia.c) -/

/-- `SCAN_CODE_F1` from pia.c. -/
def SCAN_CODE_F1 : Nat := 58

/-- `scan_code_table` from pia.c: 81 entries of (column bit pattern, row
index); row index 255 marks an unused scan code. -/
def scan_code_table : List (Nat × Nat) :=
  [ (0xff, 255),        -- #0
    (0b11111011, 6),    -- Break
    (0b11111101, 0), (0b11111011, 0), (0b11110111, 0), (0b11101111, 0),
    (0b11011111, 0), (0b10111111, 0), (0b01111111, 0),   -- 1..7
    (0b11111110, 1), (0b11111101, 1),                     -- 8, 9 (#10)
    (0b11111110, 0),    -- 0
    (0b11011111, 1),    -- minus
    (0b11111011, 1),    -- colon
    (0b11111101, 6),    -- CLEAR
    (0xff, 255),
    (0b11111101, 4), (0b01111111, 4), (0b11011111, 2), (0b11111011, 4),
    (0b11101111, 4),    -- Q W E R T (#20)
    (0b11111101, 5), (0b11011111, 4), (0b11111101, 3), (0b01111111, 3),
    (0b11111110, 4),    -- Y U I O P
    (0b11111110, 2),    -- at-sign
    (0xff, 255),
    (0b11111110, 6),    -- Enter
    (0xff, 255),
    (0b11111101, 2),    -- A (#30)
    (0b11110111, 4), (0b11101111, 2), (0b10111111, 2), (0b01111111, 2),
    (0b11111110, 3), (0b11111011, 3), (0b11110111, 3), (0b11101111, 3),
    (0b11110111, 1),    -- S D F G H J K L semicolon
    (0xff, 255),        -- #40
    (0xff, 255),
    (0b01111111, 6),    -- Shift
    (0xff, 255),
    (0b11111011, 5), (0b11111110, 5), (0b11110111, 2), (0b10111111, 4),
    (0b11111011, 2), (0b10111111, 3),   -- Z X C V B N
    (0b11011111, 3),    -- M (#50)
    (0b11101111, 1), (0b10111111, 1), (0b01111111, 1),  -- comma dot slash
    (0xff, 255), (0xff, 255), (0xff, 255),
    (0b01111111, 5),    -- Space bar
    (0xff, 255),
    (0xff, 255), (0xff, 255), (0xff, 255), (0xff, 255), (0xff, 255),
    (0xff, 255), (0xff, 255), (0xff, 255), (0xff, 255), (0xff, 255),  -- F1..F10
    (0xff, 255),
    (0xff, 255),        -- #70
    (0xff, 255),
    (0b11110111, 5),    -- Up arrow
    (0xff, 255), (0xff, 255),
    (0b11011111, 5),    -- Left arrow
    (0xff, 255),
    (0b10111111, 5),    -- Right arrow
    (0xff, 255), (0xff, 255),
    (0b11101111, 5) ]   -- Down arrow (#80)

/-- The scan-code processing block of `io_handler_pia0_pb()` on a write:
given the cached row bitmaps `rows` (the `keyboard_rows` array, one byte
per row), the `function_key` latch and the scan code polled from the
host, return the updated bitmaps and latch.  Codes 59..68 (F1..F10) are
latched (only when the latch is 0) and not injected; a zero code does
nothing; otherwise the row entry for the 7-bit code is looked up, an
entry of 255 halts the emulator (`rpi_halt()`, modelled `none`), a make
code ANDs the column pattern into the row, a break code ORs the
complement in.  A 7-bit code beyond the 81-entry table indexes out of
bounds in C (undefined behaviour) and is modelled `none`. -/
def pia_key_update (rows : List Nat) (function_key : Nat) (scan_code : Nat) :
    Option (List Nat × Nat) :=
  if 59 ≤ scan_code ∧ scan_code ≤ 68 then
    some (rows, if function_key = 0 then scan_code - SCAN_CODE_F1 else function_key)
  else if scan_code ≠ 0 then
    let idx := scan_code &&& 0x7f
    if idx < 81 then
      let entry := scan_code_table.getD idx (0xff, 255)
      if entry.2 = 255 then none
      else if scan_code &&& 0x80 ≠ 0 then
        some (rows.set entry.2 ((rows.getD entry.2 0) ||| (255 ^^^ entry.1)),
              function_key)
      else
        some (rows.set entry.2 ((rows.getD entry.2 0) &&& entry.1),
              function_key)
    else none
  else some (rows, function_key)

/-- `pia_function_key()`: return the latch value and reset it to 0
(result, new latch). -/
def pia_function_key (function_key : Nat) : Nat × Nat := (function_key, 0)

/-- The reset value of `keyboard_rows`: all seven rows 0xFF. -/
def keyboard_rows_init : List Nat := List.replicate 7 255

end Dragon

namespace Dragon

set_option maxRecDepth 10000

/-! ### Arithmetic bridges for the bit-mask idioms of the C code -/

/-- `x & 0xff` is `x mod 256`. -/
lemma land_ff (x : Nat) : x &&& 0xff = x % 256 := by
  simpa using Nat.and_pow_two_sub_one_eq_mod x 8

/-- `x & 0x0f` is `x mod 16`. -/
lemma land_0f (x : Nat) : x &&& 0x0f = x % 16 := by
  simpa using Nat.and_pow_two_sub_one_eq_mod x 4

/-- `x & 0xffff` is `x mod 65536`. -/
lemma land_ffff (x : Nat) : x &&& 0xffff = x % 65536 := by
  simpa using Nat.and_pow_two_sub_one_eq_mod x 16

/-- `x & 0x7f` is `x mod 128`. -/
lemma land_7f (x : Nat) : x &&& 0x7f = x % 128 := by
  simpa using Nat.and_pow_two_sub_one_eq_mod x 7

/-- `x & 0x100` tests bit 8. -/
lemma land_bit8 (x : Nat) : (x &&& 0x100 ≠ 0) ↔ x / 256 % 2 = 1 := by
  have h1 : x &&& 256 = (x.testBit 8).toNat * 256 := by simpa using Nat.and_two_pow x 8
  have h2 : x.testBit 8 = decide (x / 256 % 2 = 1) := by
    simpa using @Nat.testBit_to_div_mod 8 x
  rw [show (0x100 : Nat) = 256 from rfl, h1, h2]
  rcases Decidable.em (x / 256 % 2 = 1) with h | h <;> simp [h]

/-- Bit 7 as a threshold on the low byte, for values below 512. -/
lemma land_bit7_small : ∀ t, t < 512 → ((t &&& 0x80 ≠ 0) ↔ 128 ≤ t % 256) := by decide

/-- Bit 8 as a threshold, for values below 512. -/
lemma land_bit8_small : ∀ t, t < 512 → ((t &&& 0x100 ≠ 0) ↔ 256 ≤ t) := by decide

/-- The high nibble mask on a byte. -/
lemma land_f0_eq : ∀ a, a < 256 → a &&& 0xf0 = a / 16 * 16 := by decide

/-- Packing and unpacking the condition codes is the identity. -/
lemma set_cc_get_cc (cc : cc_t) : set_cc (get_cc cc) = cc := by
  obtain ⟨c, v, z, n, i, h, f, e⟩ := cc
  revert c v z n i h f e
  decide

/-- The packed condition-code byte is a byte. -/
lemma get_cc_lt (cc : cc_t) : get_cc cc < 256 := by
  obtain ⟨c, v, z, n, i, h, f, e⟩ := cc
  revert c v z n i h f e
  decide

/-! ### Stack-push machinery lemmas -/

/-- `wrByte` never changes a cell's memory attribute. -/
lemma wrByte_memory_type (m : Mem) (a d x : Nat) :
    ((wrByte m a d) x).memory_type = (m x).memory_type := by
  unfold wrByte
  split
  · rfl
  · by_cases hx : x = a <;> simp [hx]

/-- `wrByte` leaves other addresses alone. -/
lemma wrByte_ne (m : Mem) (a d x : Nat) (h : x ≠ a) : (wrByte m a d) x = m x := by
  unfold wrByte
  split
  · rfl
  · simp [h]

/-- `wrByte` stores the low data byte at a non-ROM address. -/
lemma wrByte_eq (m : Mem) (a d : Nat) (h : (m a).memory_type ≠ MemType.rom) :
    (wrByte m a d) a = { m a with data_byte := d % 256 } := by
  unfold wrByte
  split
  · exact absurd (by assumption) h
  · simp

/-- The cpu-register effect of a single push. -/
lemma push_byte_cpu (M : Machine) (d : Nat) :
    (push_byte M d).cpu = { M.cpu with s := dec16 M.cpu.s } := by
  unfold push_byte
  rfl

/-- A push does not touch the condition codes. -/
lemma push_byte_cc (M : Machine) (d : Nat) : (push_byte M d).cc = M.cc := by
  unfold push_byte
  rfl

/-- The memory effect of a single push. -/
lemma push_byte_mem (M : Machine) (d : Nat) :
    (push_byte M d).mem = wrByte M.mem (dec16 M.cpu.s) d := by
  unfold push_byte
  rfl

/-- Unfolding one step of a push sequence. -/
lemma push_list_cons (M : Machine) (d : Nat) (ds : List Nat) :
    push_list M (d :: ds) = push_list (push_byte M d) ds := by
  unfold push_list
  rw [List.foldl_cons]

/-- Unfolding the empty push sequence. -/
lemma push_list_nil (M : Machine) : push_list M [] = M := rfl

/-- A push sequence does not touch the condition codes. -/
lemma push_list_cc (ds : List Nat) : ∀ M : Machine, (push_list M ds).cc = M.cc := by
  induction ds with
  | nil => intro M; rfl
  | cons d ds ih => intro M; rw [push_list_cons, ih, push_byte_cc]

/-- The register-file effect of a push sequence: only S moves, by one
16-bit decrement per byte pushed. -/
lemma push_list_cpu (ds : List Nat) : ∀ M : Machine, M.cpu.s < 65536 →
    (push_list M ds).cpu = { M.cpu with s := (M.cpu.s + 65535 * ds.length) % 65536 } := by
  induction ds with
  | nil =>
    intro M h
    simp only [push_list_nil, List.length_nil, Nat.mul_zero, Nat.add_zero, Nat.mod_eq_of_lt h]
  | cons d ds ih =>
    intro M h
    rw [push_list_cons, ih (push_byte M d) (by simp [push_byte_cpu, dec16]; omega)]
    rw [push_byte_cpu]
    have : (dec16 M.cpu.s + 65535 * ds.length) % 65536 =
        (M.cpu.s + 65535 * (ds.length + 1)) % 65536 := by
      unfold dec16
      rw [Nat.mod_add_mod]
      ring_nf
    simp only [this, List.length_cons]

/-- A push sequence never changes memory attributes. -/
lemma push_list_memory_type (ds : List Nat) : ∀ (M : Machine) (x : Nat),
    ((push_list M ds).mem x).memory_type = (M.mem x).memory_type := by
  induction ds with
  | nil => intro M x; rfl
  | cons d ds ih =>
    intro M x
    rw [push_list_cons, ih, push_byte_mem, wrByte_memory_type]

/-- A push sequence leaves every address outside the pushed frame alone. -/
lemma push_list_mem_untouched (ds : List Nat) : ∀ (M : Machine) (x : Nat),
    M.cpu.s < 65536 →
    (∀ j, j < ds.length → x ≠ (M.cpu.s + 65535 * (j + 1)) % 65536) →
    (push_list M ds).mem x = M.mem x := by
  induction ds with
  | nil => intro M x _ _; rfl
  | cons d ds ih =>
    intro M x hs hx
    rw [push_list_cons]
    have hstep : ∀ y : Nat, (dec16 M.cpu.s + 65535 * (y + 1)) % 65536 =
        (M.cpu.s + 65535 * (y + 2)) % 65536 := by
      intro y
      unfold dec16
      rw [Nat.mod_add_mod]
      ring_nf
    have hside : ∀ j, j < ds.length →
        x ≠ ((push_byte M d).cpu.s + 65535 * (j + 1)) % 65536 := by
      intro j hj
      have h2 : ((push_byte M d).cpu.s + 65535 * (j + 1)) % 65536 =
          (M.cpu.s + 65535 * (j + 2)) % 65536 := by
        rw [push_byte_cpu]
        exact hstep j
      rw [h2]
      have h3 := hx (j + 1) (by simp only [List.length_cons]; omega)
      have h4 : j + 1 + 1 = j + 2 := rfl
      rw [h4] at h3
      exact h3
    rw [ih (push_byte M d) x (by rw [push_byte_cpu]; exact Nat.mod_lt _ (by omega)) hside]
    rw [push_byte_mem, wrByte_ne]
    have h0 := hx 0 (by simp only [List.length_cons]; omega)
    unfold dec16
    simpa using h0


/-- After a push sequence, the k-th pushed byte (0-indexed) can be read
back at its cell, provided that cell is not ROM and no later push lands
on the same address. -/
lemma push_list_read_back (ds : List Nat) : ∀ (M : Machine) (k : Nat),
    M.cpu.s < 65536 → k < ds.length →
    (M.mem ((M.cpu.s + 65535 * (k + 1)) % 65536)).memory_type ≠ MemType.rom →
    (∀ j, j < ds.length → j ≠ k →
        (M.cpu.s + 65535 * (j + 1)) % 65536 ≠ (M.cpu.s + 65535 * (k + 1)) % 65536) →
    ((push_list M ds).mem ((M.cpu.s + 65535 * (k + 1)) % 65536)).data_byte
      = (ds.getD k 0) % 256 := by
  induction ds with
  | nil =>
    intro M k _ hk _ _
    simp at hk
  | cons d ds ih =>
    intro M k hs hk hrom hdist
    rw [push_list_cons]
    have hstep : ∀ y : Nat, (dec16 M.cpu.s + 65535 * (y + 1)) % 65536 =
        (M.cpu.s + 65535 * (y + 2)) % 65536 := by
      intro y
      unfold dec16
      rw [Nat.mod_add_mod]
      ring_nf
    have hs1 : (push_byte M d).cpu.s < 65536 := by
      rw [push_byte_cpu]
      exact Nat.mod_lt _ (by omega)
    rcases k with _ | k'
    · have ha0 : (M.cpu.s + 65535 * (0 + 1)) % 65536 = dec16 M.cpu.s := by
        unfold dec16
        norm_num
      rw [ha0] at hrom ⊢
      have huntouched : ∀ j, j < ds.length →
          dec16 M.cpu.s ≠ ((push_byte M d).cpu.s + 65535 * (j + 1)) % 65536 := by
        intro j hj
        have h2 : ((push_byte M d).cpu.s + 65535 * (j + 1)) % 65536 =
            (M.cpu.s + 65535 * (j + 2)) % 65536 := by
          rw [push_byte_cpu]
          exact hstep j
        rw [h2]
        have h3 := hdist (j + 1) (by simp only [List.length_cons]; omega) (by omega)
        have h4 : j + 1 + 1 = j + 2 := rfl
        rw [h4] at h3
        rw [ha0] at h3
        exact h3.symm
      rw [push_list_mem_untouched ds (push_byte M d) (dec16 M.cpu.s) hs1 huntouched]
      rw [push_byte_mem, wrByte_eq M.mem (dec16 M.cpu.s) d hrom]
      rfl
    · have haddr : (M.cpu.s + 65535 * (k' + 1 + 1)) % 65536 =
          ((push_byte M d).cpu.s + 65535 * (k' + 1)) % 65536 := by
        rw [push_byte_cpu]
        exact (hstep k').symm
      rw [haddr] at hrom ⊢
      have hrom1 : ((push_byte M d).mem
          (((push_byte M d).cpu.s + 65535 * (k' + 1)) % 65536)).memory_type
          ≠ MemType.rom := by
        rw [push_byte_mem, wrByte_memory_type]
        exact hrom
      have hdist1 : ∀ j, j < ds.length → j ≠ k' →
          ((push_byte M d).cpu.s + 65535 * (j + 1)) % 65536 ≠
          ((push_byte M d).cpu.s + 65535 * (k' + 1)) % 65536 := by
        intro j hj hjk
        have h2 : ((push_byte M d).cpu.s + 65535 * (j + 1)) % 65536 =
            (M.cpu.s + 65535 * (j + 2)) % 65536 := by
          rw [push_byte_cpu]
          exact hstep j
        have h3 : ((push_byte M d).cpu.s + 65535 * (k' + 1)) % 65536 =
            (M.cpu.s + 65535 * (k' + 2)) % 65536 := by
          rw [push_byte_cpu]
          exact hstep k'
        rw [h2, h3]
        have h5 := hdist (j + 1) (by simp only [List.length_cons]; omega) (by omega)
        have h6 : j + 1 + 1 = j + 2 := rfl
        have h7 : k' + 1 + 1 = k' + 2 := rfl
        rw [h6, h7] at h5
        exact h5
      have hk2 : k' < ds.length := by
        simp only [List.length_cons] at hk
        omega
      have hfin := ih (push_byte M d) k' hs1 hk2 hrom1 hdist1
      rw [hfin]
      rfl

/-- Address of the j-th byte below the initial stack pointer (j = 1..12
for an entire-state frame), with 16-bit wrap-around. -/
def stack_frame_addr (s j : Nat) : Nat := (s + 65536 - j) % 65536

/-- The two address forms for the j-th pushed byte agree. -/
lemma stack_addr_eq (s j : Nat) (hs : s < 65536) (h1 : 1 ≤ j) (h2 : j ≤ 12) :
    (s + 65535 * j) % 65536 = stack_frame_addr s j := by
  unfold stack_frame_addr
  interval_cases j <;> omega

/-- Distinct depths give distinct frame addresses. -/
lemma stack_addr_ne (s i j : Nat) (hs : s < 65536) (hi1 : 1 ≤ i) (hi2 : i ≤ 24)
    (hj1 : 1 ≤ j) (hj2 : j ≤ 24) (hij : i ≠ j) :
    stack_frame_addr s i ≠ stack_frame_addr s j := by
  unfold stack_frame_addr
  interval_cases i <;> interval_cases j <;> omega

/-- Full characterisation of the entire-state push sequence: the final
stack pointer, untouched registers and flags, preserved memory
attributes, untouched memory outside the frame, and the twelve frame
bytes laid out as CC (deepest), A, B, DP, X, Y, U, PC (shallowest pair
pushed first). -/
lemma push_all_registers_spec (M : Machine) (ccval : Nat)
    (hs : M.cpu.s < 65536)
    (hrom : ∀ j, 1 ≤ j → j ≤ 12 →
      (M.mem (stack_frame_addr M.cpu.s j)).memory_type ≠ MemType.rom) :
    (push_all_registers M ccval).cpu =
      { M.cpu with s := stack_frame_addr M.cpu.s 12 } ∧
    (push_all_registers M ccval).cc = M.cc ∧
    (∀ x, ((push_all_registers M ccval).mem x).memory_type = (M.mem x).memory_type) ∧
    (∀ x, (∀ j, 1 ≤ j → j ≤ 12 → x ≠ stack_frame_addr M.cpu.s j) →
      (push_all_registers M ccval).mem x = M.mem x) ∧
    rdByte (push_all_registers M ccval).mem (stack_frame_addr M.cpu.s 1)
      = (M.cpu.pc &&& 0xff) % 256 ∧
    rdByte (push_all_registers M ccval).mem (stack_frame_addr M.cpu.s 2)
      = ((M.cpu.pc >>> 8) &&& 0xff) % 256 ∧
    rdByte (push_all_registers M ccval).mem (stack_frame_addr M.cpu.s 3)
      = (M.cpu.u &&& 0xff) % 256 ∧
    rdByte (push_all_registers M ccval).mem (stack_frame_addr M.cpu.s 4)
      = ((M.cpu.u >>> 8) &&& 0xff) % 256 ∧
    rdByte (push_all_registers M ccval).mem (stack_frame_addr M.cpu.s 5)
      = (M.cpu.y &&& 0xff) % 256 ∧
    rdByte (push_all_registers M ccval).mem (stack_frame_addr M.cpu.s 6)
      = ((M.cpu.y >>> 8) &&& 0xff) % 256 ∧
    rdByte (push_all_registers M ccval).mem (stack_frame_addr M.cpu.s 7)
      = (M.cpu.x &&& 0xff) % 256 ∧
    rdByte (push_all_registers M ccval).mem (stack_frame_addr M.cpu.s 8)
      = ((M.cpu.x >>> 8) &&& 0xff) % 256 ∧
    rdByte (push_all_registers M ccval).mem (stack_frame_addr M.cpu.s 9)
      = M.cpu.dp % 256 ∧
    rdByte (push_all_registers M ccval).mem (stack_frame_addr M.cpu.s 10)
      = M.cpu.b % 256 ∧
    rdByte (push_all_registers M ccval).mem (stack_frame_addr M.cpu.s 11)
      = M.cpu.a % 256 ∧
    rdByte (push_all_registers M ccval).mem (stack_frame_addr M.cpu.s 12)
      = ccval % 256 := by
  unfold push_all_registers
  set ds : List Nat :=
    [ M.cpu.pc &&& 0xff, (M.cpu.pc >>> 8) &&& 0xff,
      M.cpu.u &&& 0xff, (M.cpu.u >>> 8) &&& 0xff,
      M.cpu.y &&& 0xff, (M.cpu.y >>> 8) &&& 0xff,
      M.cpu.x &&& 0xff, (M.cpu.x >>> 8) &&& 0xff,
      M.cpu.dp, M.cpu.b, M.cpu.a, ccval ] with hds
  have hlen : ds.length = 12 := by rw [hds]; rfl
  have hread : ∀ k, k < 12 →
      ((push_list M ds).mem (stack_frame_addr M.cpu.s (k + 1))).data_byte
        = (ds.getD k 0) % 256 := by
    intro k hk
    have haddr : (M.cpu.s + 65535 * (k + 1)) % 65536 = stack_frame_addr M.cpu.s (k + 1) :=
      stack_addr_eq M.cpu.s (k + 1) hs (by omega) (by omega)
    have h := push_list_read_back ds M k hs (by omega)
      (by rw [haddr]; exact hrom (k + 1) (by omega) (by omega))
      ?_
    · rw [haddr] at h
      exact h
    · intro j hj hjk
      have ha1 : (M.cpu.s + 65535 * (j + 1)) % 65536 = stack_frame_addr M.cpu.s (j + 1) :=
        stack_addr_eq M.cpu.s (j + 1) hs (by omega) (by rw [hlen] at hj; omega)
      rw [ha1, haddr]
      exact stack_addr_ne M.cpu.s (j + 1) (k + 1) hs (by omega)
        (by rw [hlen] at hj; omega) (by omega) (by omega) (by omega)
  refine ⟨?_, push_list_cc ds M, push_list_memory_type ds M, ?_, ?_, ?_, ?_, ?_, ?_, ?_, ?_, ?_, ?_, ?_, ?_, ?_⟩
  · rw [push_list_cpu ds M hs, hlen]
    rw [stack_addr_eq M.cpu.s 12 hs (by omega) (by omega)]
  · intro x hx
    refine push_list_mem_untouched ds M x hs ?_
    intro j hj
    rw [hlen] at hj
    rw [stack_addr_eq M.cpu.s (j + 1) hs (by omega) (by omega)]
    exact hx (j + 1) (by omega) (by omega)
  · exact hread 0 (by omega)
  · exact hread 1 (by omega)
  · exact hread 2 (by omega)
  · exact hread 3 (by omega)
  · exact hread 4 (by omega)
  · exact hread 5 (by omega)
  · exact hread 6 (by omega)
  · exact hread 7 (by omega)
  · exact hread 8 (by omega)
  · exact hread 9 (by omega)
  · exact hread 10 (by omega)
  · exact hread 11 (by omega)

/-- `stack_frame_addr s 0` is just `s` (for a 16-bit s). -/
lemma stack_frame_addr_zero (s : Nat) (hs : s < 65536) : stack_frame_addr s 0 = s := by
  unfold stack_frame_addr
  omega

/-- Walking back up the frame: incrementing the address of depth j+1
gives depth j. -/
lemma inc16_frame (s j : Nat) (hs : s < 65536) (h2 : j ≤ 23) :
    inc16 (stack_frame_addr s (j + 1)) = stack_frame_addr s j := by
  unfold inc16 stack_frame_addr
  interval_cases j <;> omega

/-- Reassembling a 16-bit value from its two frame bytes. -/
lemma hi_lo_recompose (x : Nat) (hx : x < 65536) :
    ((((x >>> 8) &&& 0xff) <<< 8) % 65536 + (x &&& 0xff)) % 65536 = x := by
  rw [land_ff, land_ff, Nat.shiftRight_eq_div_pow, Nat.shiftLeft_eq]
  norm_num
  omega

/-- Full characterisation of `rti()` on a memory that holds an
entire-state frame at depths 1..12 below `s0`: every register and the
condition codes are restored, and S returns to `s0`. -/
lemma rti_fn_spec (M : Machine) (cc0 : cc_t) (a0 b0 dp0 x0 y0 u0 pc0 s0 : Nat)
    (hs : M.cpu.s = stack_frame_addr s0 12) (hs0 : s0 < 65536)
    (hx0 : x0 < 65536) (hy0 : y0 < 65536) (hu0 : u0 < 65536) (hpc0 : pc0 < 65536)
    (he : cc0.e = true)
    (hr12 : rd8 M.mem (stack_frame_addr s0 12) = get_cc cc0)
    (hr11 : rd8 M.mem (stack_frame_addr s0 11) = a0)
    (hr10 : rd8 M.mem (stack_frame_addr s0 10) = b0)
    (hr9 : rd8 M.mem (stack_frame_addr s0 9) = dp0)
    (hr8 : rdByte M.mem (stack_frame_addr s0 8) = (x0 >>> 8) &&& 0xff)
    (hr7 : rdByte M.mem (stack_frame_addr s0 7) = x0 &&& 0xff)
    (hr6 : rdByte M.mem (stack_frame_addr s0 6) = (y0 >>> 8) &&& 0xff)
    (hr5 : rdByte M.mem (stack_frame_addr s0 5) = y0 &&& 0xff)
    (hr4 : rdByte M.mem (stack_frame_addr s0 4) = (u0 >>> 8) &&& 0xff)
    (hr3 : rdByte M.mem (stack_frame_addr s0 3) = u0 &&& 0xff)
    (hr2 : rd8 M.mem (stack_frame_addr s0 2) = (pc0 >>> 8) &&& 0xff)
    (hr1 : rd8 M.mem (stack_frame_addr s0 1) = pc0 &&& 0xff) :
    rti_fn M = { M with
      cpu := { M.cpu with a := a0, b := b0, dp := dp0,
                          x := x0, y := y0, u := u0, pc := pc0, s := s0 },
      cc := cc0 } := by
  have h11 : inc16 (stack_frame_addr s0 12) = stack_frame_addr s0 11 :=
    inc16_frame s0 11 hs0 (by omega)
  have h10 : inc16 (stack_frame_addr s0 11) = stack_frame_addr s0 10 :=
    inc16_frame s0 10 hs0 (by omega)
  have h9 : inc16 (stack_frame_addr s0 10) = stack_frame_addr s0 9 :=
    inc16_frame s0 9 hs0 (by omega)
  have h8 : inc16 (stack_frame_addr s0 9) = stack_frame_addr s0 8 :=
    inc16_frame s0 8 hs0 (by omega)
  have h7 : inc16 (stack_frame_addr s0 8) = stack_frame_addr s0 7 :=
    inc16_frame s0 7 hs0 (by omega)
  have h6 : inc16 (stack_frame_addr s0 7) = stack_frame_addr s0 6 :=
    inc16_frame s0 6 hs0 (by omega)
  have h5 : inc16 (stack_frame_addr s0 6) = stack_frame_addr s0 5 :=
    inc16_frame s0 5 hs0 (by omega)
  have h4 : inc16 (stack_frame_addr s0 5) = stack_frame_addr s0 4 :=
    inc16_frame s0 4 hs0 (by omega)
  have h3 : inc16 (stack_frame_addr s0 4) = stack_frame_addr s0 3 :=
    inc16_frame s0 3 hs0 (by omega)
  have h2 : inc16 (stack_frame_addr s0 3) = stack_frame_addr s0 2 :=
    inc16_frame s0 2 hs0 (by omega)
  have h1 : inc16 (stack_frame_addr s0 2) = stack_frame_addr s0 1 :=
    inc16_frame s0 1 hs0 (by omega)
  have h0 : inc16 (stack_frame_addr s0 1) = s0 := by
    rw [inc16_frame s0 0 hs0 (by omega)]
    exact stack_frame_addr_zero s0 hs0
  have hx : ((((x0 >>> 8) &&& 0xff) <<< 8) % 65536 + (x0 &&& 0xff)) % 65536 = x0 :=
    hi_lo_recompose x0 hx0
  have hy : ((((y0 >>> 8) &&& 0xff) <<< 8) % 65536 + (y0 &&& 0xff)) % 65536 = y0 :=
    hi_lo_recompose y0 hy0
  have hu : ((((u0 >>> 8) &&& 0xff) <<< 8) % 65536 + (u0 &&& 0xff)) % 65536 = u0 :=
    hi_lo_recompose u0 hu0
  have hpc : ((((pc0 >>> 8) &&& 0xff) <<< 8) % 65536 + (pc0 &&& 0xff)) % 65536 = pc0 :=
    hi_lo_recompose pc0 hpc0
  unfold rti_fn
  simp only [hs, hr12, set_cc_get_cc, he, h11, hr11, h10, hr10, h9, hr9, h8, hr8,
    h7, hr7, h6, hr6, h5, hr5, h4, hr4, h3, hr3, h2, hr2, h1, hr1, h0,
    if_true, hx, hy, hu, hpc]

/-- Characterisation of the IRQ service branch: CPU_EXEC entered, E set
then the frame pushed with that CC byte, I set afterwards (F untouched),
PC loaded from the vector at 0xFFF8/9 (read after the pushes), all other
registers untouched. -/
lemma irq_service_spec (M : Machine)
    (hs : M.cpu.s < 65536)
    (hrom : ∀ j, 1 ≤ j → j ≤ 12 →
      (M.mem (stack_frame_addr M.cpu.s j)).memory_type ≠ MemType.rom)
    (hvec1 : ∀ j, 1 ≤ j → j ≤ 12 → VEC_IRQ ≠ stack_frame_addr M.cpu.s j)
    (hvec2 : ∀ j, 1 ≤ j → j ≤ 12 → VEC_IRQ + 1 ≠ stack_frame_addr M.cpu.s j) :
    (irq_service M).cpu = { M.cpu with
                            cpu_state := (cpu_run_state_t.CPU_EXEC)
                            s := stack_frame_addr M.cpu.s 12
                            pc := read_vector M.mem VEC_IRQ } ∧
    (irq_service M).cc = { M.cc with e := true, i := true } ∧
    (∀ x, ((irq_service M).mem x).memory_type = (M.mem x).memory_type) ∧
    (∀ x, (∀ j, 1 ≤ j → j ≤ 12 → x ≠ stack_frame_addr M.cpu.s j) →
      (irq_service M).mem x = M.mem x) ∧
    rdByte (irq_service M).mem (stack_frame_addr M.cpu.s 1) = (M.cpu.pc &&& 0xff) % 256 ∧
    rdByte (irq_service M).mem (stack_frame_addr M.cpu.s 2) = ((M.cpu.pc >>> 8) &&& 0xff) % 256 ∧
    rdByte (irq_service M).mem (stack_frame_addr M.cpu.s 3) = (M.cpu.u &&& 0xff) % 256 ∧
    rdByte (irq_service M).mem (stack_frame_addr M.cpu.s 4) = ((M.cpu.u >>> 8) &&& 0xff) % 256 ∧
    rdByte (irq_service M).mem (stack_frame_addr M.cpu.s 5) = (M.cpu.y &&& 0xff) % 256 ∧
    rdByte (irq_service M).mem (stack_frame_addr M.cpu.s 6) = ((M.cpu.y >>> 8) &&& 0xff) % 256 ∧
    rdByte (irq_service M).mem (stack_frame_addr M.cpu.s 7) = (M.cpu.x &&& 0xff) % 256 ∧
    rdByte (irq_service M).mem (stack_frame_addr M.cpu.s 8) = ((M.cpu.x >>> 8) &&& 0xff) % 256 ∧
    rdByte (irq_service M).mem (stack_frame_addr M.cpu.s 9) = M.cpu.dp % 256 ∧
    rdByte (irq_service M).mem (stack_frame_addr M.cpu.s 10) = M.cpu.b % 256 ∧
    rdByte (irq_service M).mem (stack_frame_addr M.cpu.s 11) = M.cpu.a % 256 ∧
    rdByte (irq_service M).mem (stack_frame_addr M.cpu.s 12)
      = get_cc { M.cc with e := true } := by
  have hspec := push_all_registers_spec
    { M with cpu := { M.cpu with cpu_state := cpu_run_state_t.CPU_EXEC },
             cc := { M.cc with e := true } }
    (get_cc { M.cc with e := true }) hs hrom
  obtain ⟨hcpu, hcc, htype, huntouched, r1, r2, r3, r4, r5, r6, r7, r8, r9, r10, r11, r12⟩ := hspec
  have hccv : get_cc { M.cc with e := true } % 256 = get_cc { M.cc with e := true } :=
    Nat.mod_eq_of_lt (get_cc_lt _)
  have hvec_read : read_vector (push_all_registers
      { M with cpu := { M.cpu with cpu_state := cpu_run_state_t.CPU_EXEC },
               cc := { M.cc with e := true } }
      (get_cc { M.cc with e := true })).mem VEC_IRQ = read_vector M.mem VEC_IRQ := by
    unfold read_vector rdByte
    rw [huntouched VEC_IRQ hvec1, huntouched (VEC_IRQ + 1) hvec2]
  simp only [irq_service]
  refine ⟨?_, ?_, htype, huntouched, r1, r2, r3, r4, r5, r6, r7, r8, r9, r10, r11, ?_⟩
  · rw [hvec_read, hcpu]
  · rw [hcc]
  · rw [r12, hccv]

/-- A masked byte is already reduced mod 256. -/
lemma land_ff_mod (x : Nat) : (x &&& 0xff) % 256 = x &&& 0xff := by
  rw [land_ff]
  omega

/-- `rd8` is `rdByte` reduced mod 256. -/
lemma rd8_eq (m : Mem) (a : Nat) : rd8 m a = rdByte m a % 256 := rfl

/-- The interrupt cascade dispatches to the IRQ service when the IRQ
line is asserted and unmasked and neither NMI nor FIRQ competes. -/
lemma interrupt_check_irq (K : Machine)
    (hi : K.cc.i = false) (hirq : K.cpu.irq_asserted = true)
    (hnmi : ¬(K.cpu.nmi_armed = true ∧ K.cpu.nmi_latched = true))
    (hfirq : K.cc.f = true ∨ K.cpu.firq_asserted = false) :
    interrupt_check K = irq_service K := by
  unfold interrupt_check
  rw [if_neg, if_neg, if_pos]
  · exact ⟨by simp [hi], hirq⟩
  · rintro ⟨hf, hfi⟩
    rcases hfirq with h | h
    · simp [h] at hf
    · rw [h] at hfi
      exact absurd hfi (by simp)
  · exact hnmi

/-- The interrupt cascade does nothing when every source is masked,
deasserted or disarmed. -/
lemma interrupt_check_none (K : Machine)
    (hnmi : ¬(K.cpu.nmi_armed = true ∧ K.cpu.nmi_latched = true))
    (hf : K.cpu.firq_asserted = true → K.cc.f = true)
    (hi : K.cpu.irq_asserted = true → K.cc.i = true) :
    interrupt_check K = K := by
  unfold interrupt_check
  rw [if_neg, if_neg, if_neg]
  · rintro ⟨hia, hir⟩
    rw [hi hir] at hia
    exact absurd hia (by simp)
  · rintro ⟨hfa, hfr⟩
    rw [hf hfr] at hfa
    exact absurd hfa (by simp)
  · exact hnmi

/-- `cpu_run()` with no reset latched and no HALT proceeds to the
interrupt cascade, then either stays in SYNC or fetches. -/
lemma cpu_step_no_reset_no_halt (M : Machine)
    (hreset : M.cpu.reset_asserted = false)
    (hhalt : M.cpu.halt_asserted = false) :
    cpu_step M =
      (if (interrupt_check { M with cpu := { M.cpu with last_pc := M.cpu.pc } }).cpu.cpu_state
          = cpu_run_state_t.CPU_SYNC
       then some (interrupt_check { M with cpu := { M.cpu with last_pc := M.cpu.pc } })
       else fetch_exec
         { interrupt_check { M with cpu := { M.cpu with last_pc := M.cpu.pc } } with
           cpu := { (interrupt_check
             { M with cpu := { M.cpu with last_pc := M.cpu.pc } }).cpu with
             cpu_state := (cpu_run_state_t.CPU_EXEC) } }) := by
  unfold cpu_step
  rw [if_neg (by simp [hreset]), if_neg (by simp [hhalt])]

/-- Fetch dispatch when the op-code at PC is RTI (0x3b). -/
lemma fetch_exec_rti (K : Machine) (hop : rdByte K.mem K.cpu.pc = 0x3b) :
    fetch_exec K =
      some (rti_fn { K with cpu := { K.cpu with pc := (K.cpu.pc + 1) % 65536 } }) := by
  simp only [fetch_exec, hop]
  norm_num
/-- C1 (amended).  IRQ entry followed by RTI: with the IRQ line asserted
and unmasked, no competing reset/halt/NMI/FIRQ, a writable 12-byte stack
frame that does not overlap the IRQ vector, and the vector pointing at
an RTI op-code outside the frame, the interrupt cascade of one
`cpu_run()` call pushes the twelve-byte frame (PC, U, Y, X, DP, B, A,
CC-with-E-set from shallow to deep), sets I, loads PC from 0xFFF8/9, and
the RTI executed by that same call restores A, B, DP, X, Y, U, S and PC
exactly; CC is restored except that E remains forced to 1. -/
theorem irq_entry_rti_round_trip (M : Machine)
    (hwf : CpuWF M.cpu)
    (hi : M.cc.i = false) (hirq : M.cpu.irq_asserted = true)
    (hreset : M.cpu.reset_asserted = false) (hhalt : M.cpu.halt_asserted = false)
    (hnmi : ¬(M.cpu.nmi_armed = true ∧ M.cpu.nmi_latched = true))
    (hfirq : M.cc.f = true ∨ M.cpu.firq_asserted = false)
    (hrom : ∀ j, 1 ≤ j → j ≤ 12 →
      (M.mem (stack_frame_addr M.cpu.s j)).memory_type ≠ MemType.rom)
    (hvec1 : ∀ j, 1 ≤ j → j ≤ 12 → VEC_IRQ ≠ stack_frame_addr M.cpu.s j)
    (hvec2 : ∀ j, 1 ≤ j → j ≤ 12 → VEC_IRQ + 1 ≠ stack_frame_addr M.cpu.s j)
    (hisr_op : rdByte M.mem (read_vector M.mem VEC_IRQ) = 0x3b)
    (hisr_out : ∀ j, 1 ≤ j → j ≤ 12 →
      read_vector M.mem VEC_IRQ ≠ stack_frame_addr M.cpu.s j) :
    (interrupt_check { M with cpu := { M.cpu with last_pc := M.cpu.pc } }
      = irq_service { M with cpu := { M.cpu with last_pc := M.cpu.pc } }) ∧
    (irq_service { M with cpu := { M.cpu with last_pc := M.cpu.pc } }).cpu.s
      = stack_frame_addr M.cpu.s 12 ∧
    (irq_service { M with cpu := { M.cpu with last_pc := M.cpu.pc } }).cc
      = { M.cc with e := true, i := true } ∧
    (irq_service { M with cpu := { M.cpu with last_pc := M.cpu.pc } }).cpu.pc
      = read_vector M.mem VEC_IRQ ∧
    rdByte (irq_service { M with cpu := { M.cpu with last_pc := M.cpu.pc } }).mem
      (stack_frame_addr M.cpu.s 1) = M.cpu.pc &&& 0xff ∧
    rdByte (irq_service { M with cpu := { M.cpu with last_pc := M.cpu.pc } }).mem
      (stack_frame_addr M.cpu.s 2) = (M.cpu.pc >>> 8) &&& 0xff ∧
    rdByte (irq_service { M with cpu := { M.cpu with last_pc := M.cpu.pc } }).mem
      (stack_frame_addr M.cpu.s 3) = M.cpu.u &&& 0xff ∧
    rdByte (irq_service { M with cpu := { M.cpu with last_pc := M.cpu.pc } }).mem
      (stack_frame_addr M.cpu.s 4) = (M.cpu.u >>> 8) &&& 0xff ∧
    rdByte (irq_service { M with cpu := { M.cpu with last_pc := M.cpu.pc } }).mem
      (stack_frame_addr M.cpu.s 5) = M.cpu.y &&& 0xff ∧
    rdByte (irq_service { M with cpu := { M.cpu with last_pc := M.cpu.pc } }).mem
      (stack_frame_addr M.cpu.s 6) = (M.cpu.y >>> 8) &&& 0xff ∧
    rdByte (irq_service { M with cpu := { M.cpu with last_pc := M.cpu.pc } }).mem
      (stack_frame_addr M.cpu.s 7) = M.cpu.x &&& 0xff ∧
    rdByte (irq_service { M with cpu := { M.cpu with last_pc := M.cpu.pc } }).mem
      (stack_frame_addr M.cpu.s 8) = (M.cpu.x >>> 8) &&& 0xff ∧
    rdByte (irq_service { M with cpu := { M.cpu with last_pc := M.cpu.pc } }).mem
      (stack_frame_addr M.cpu.s 9) = M.cpu.dp ∧
    rdByte (irq_service { M with cpu := { M.cpu with last_pc := M.cpu.pc } }).mem
      (stack_frame_addr M.cpu.s 10) = M.cpu.b ∧
    rdByte (irq_service { M with cpu := { M.cpu with last_pc := M.cpu.pc } }).mem
      (stack_frame_addr M.cpu.s 11) = M.cpu.a ∧
    rdByte (irq_service { M with cpu := { M.cpu with last_pc := M.cpu.pc } }).mem
      (stack_frame_addr M.cpu.s 12) = get_cc { M.cc with e := true } ∧
    (∃ R, cpu_step M = some R ∧
      R.cpu.a = M.cpu.a ∧ R.cpu.b = M.cpu.b ∧ R.cpu.dp = M.cpu.dp ∧
      R.cpu.x = M.cpu.x ∧ R.cpu.y = M.cpu.y ∧ R.cpu.u = M.cpu.u ∧
      R.cpu.s = M.cpu.s ∧ R.cpu.pc = M.cpu.pc ∧
      R.cc = { M.cc with e := true }) := by
  obtain ⟨hwx, hwy, hwu, hws, hwpc, hwa, hwb, hwdp⟩ := hwf
  set N : Machine := { M with cpu := { M.cpu with last_pc := M.cpu.pc } } with hN
  have hNs : N.cpu.s = M.cpu.s := by rw [hN]
  have hNpc : N.cpu.pc = M.cpu.pc := by rw [hN]
  have hNu : N.cpu.u = M.cpu.u := by rw [hN]
  have hNx : N.cpu.x = M.cpu.x := by rw [hN]
  have hNy : N.cpu.y = M.cpu.y := by rw [hN]
  have hNdp : N.cpu.dp = M.cpu.dp := by rw [hN]
  have hNb : N.cpu.b = M.cpu.b := by rw [hN]
  have hNa : N.cpu.a = M.cpu.a := by rw [hN]
  have hNcc : N.cc = M.cc := by rw [hN]
  have hNmem : N.mem = M.mem := by rw [hN]
  have hNhalt : N.cpu.halt_asserted = false := by rw [hN]; exact hhalt
  have hspec := irq_service_spec N
    (by rw [hNs]; exact hws)
    (by simp only [hNmem, hNs]; exact hrom)
    (by simp only [hNs]; exact hvec1)
    (by simp only [hNs]; exact hvec2)
  obtain ⟨hcpu, hcc, htype, huntouched, r1, r2, r3, r4, r5, r6, r7, r8, r9, r10, r11, r12⟩ :=
    hspec
  simp only [hNs, hNpc, hNu, hNx, hNy, hNdp, hNb, hNa, hNcc, hNmem] at hcpu hcc huntouched r1 r2 r3 r4 r5 r6 r7 r8 r9 r10 r11 r12
  rw [land_ff_mod] at r1 r3 r5 r7
  rw [land_ff_mod] at r2 r4 r6 r8
  rw [Nat.mod_eq_of_lt hwdp] at r9
  rw [Nat.mod_eq_of_lt hwb] at r10
  rw [Nat.mod_eq_of_lt hwa] at r11
  have hic : interrupt_check N = irq_service N :=
    interrupt_check_irq N (by rw [hN]; exact hi) (by rw [hN]; exact hirq)
      (by rw [hN]; exact hnmi) (by rw [hN]; exact hfirq)
  refine ⟨hic, ?_, hcc, ?_, r1, r2, r3, r4, r5, r6, r7, r8, r9, r10, r11, r12, ?_⟩
  · rw [hcpu]
  · rw [hcpu]
  · have hicstate : (irq_service N).cpu.cpu_state = cpu_run_state_t.CPU_EXEC := by
      rw [hcpu]
    have hstep0 := cpu_step_no_reset_no_halt M hreset hhalt
    rw [← hN] at hstep0
    rw [hic, if_neg (by rw [hicstate]; exact (by decide))] at hstep0
    set E : Machine :=
      { irq_service N with cpu := { (irq_service N).cpu with
          cpu_state := (cpu_run_state_t.CPU_EXEC) } } with hE
    have hEmem : E.mem = (irq_service N).mem := by rw [hE]
    have hEpc : E.cpu.pc = read_vector M.mem VEC_IRQ := by
      rw [hE]
      show (irq_service N).cpu.pc = _
      rw [hcpu]
    have hEs : E.cpu.s = stack_frame_addr M.cpu.s 12 := by
      rw [hE]
      show (irq_service N).cpu.s = _
      rw [hcpu]
    have hop : rdByte E.mem E.cpu.pc = 0x3b := by
      rw [hEmem, hEpc]
      show ((irq_service N).mem (read_vector M.mem VEC_IRQ)).data_byte = 0x3b
      rw [huntouched (read_vector M.mem VEC_IRQ) hisr_out]
      exact hisr_op
    have hfetch := fetch_exec_rti E hop
    set E1 : Machine :=
      { E with cpu := { E.cpu with pc := (E.cpu.pc + 1) % 65536 } } with hE1
    have hE1mem : E1.mem = (irq_service N).mem := by rw [hE1, hE]
    have hE1s : E1.cpu.s = stack_frame_addr M.cpu.s 12 := by
      rw [hE1]
      show E.cpu.s = _
      exact hEs
    have hr12 : rd8 E1.mem (stack_frame_addr M.cpu.s 12) = get_cc { M.cc with e := true } := by
      rw [rd8_eq, hE1mem, r12]
      exact Nat.mod_eq_of_lt (get_cc_lt _)
    have hr11 : rd8 E1.mem (stack_frame_addr M.cpu.s 11) = M.cpu.a := by
      rw [rd8_eq, hE1mem, r11]
      exact Nat.mod_eq_of_lt hwa
    have hr10 : rd8 E1.mem (stack_frame_addr M.cpu.s 10) = M.cpu.b := by
      rw [rd8_eq, hE1mem, r10]
      exact Nat.mod_eq_of_lt hwb
    have hr9 : rd8 E1.mem (stack_frame_addr M.cpu.s 9) = M.cpu.dp := by
      rw [rd8_eq, hE1mem, r9]
      exact Nat.mod_eq_of_lt hwdp
    have hr8 : rdByte E1.mem (stack_frame_addr M.cpu.s 8) = (M.cpu.x >>> 8) &&& 0xff := by
      rw [hE1mem]
      exact r8
    have hr7 : rdByte E1.mem (stack_frame_addr M.cpu.s 7) = M.cpu.x &&& 0xff := by
      rw [hE1mem]
      exact r7
    have hr6 : rdByte E1.mem (stack_frame_addr M.cpu.s 6) = (M.cpu.y >>> 8) &&& 0xff := by
      rw [hE1mem]
      exact r6
    have hr5 : rdByte E1.mem (stack_frame_addr M.cpu.s 5) = M.cpu.y &&& 0xff := by
      rw [hE1mem]
      exact r5
    have hr4 : rdByte E1.mem (stack_frame_addr M.cpu.s 4) = (M.cpu.u >>> 8) &&& 0xff := by
      rw [hE1mem]
      exact r4
    have hr3 : rdByte E1.mem (stack_frame_addr M.cpu.s 3) = M.cpu.u &&& 0xff := by
      rw [hE1mem]
      exact r3
    have hr2 : rd8 E1.mem (stack_frame_addr M.cpu.s 2) = (M.cpu.pc >>> 8) &&& 0xff := by
      rw [rd8_eq, hE1mem, r2]
      exact land_ff_mod _
    have hr1 : rd8 E1.mem (stack_frame_addr M.cpu.s 1) = M.cpu.pc &&& 0xff := by
      rw [rd8_eq, hE1mem, r1]
      exact land_ff_mod _
    have hrti := rti_fn_spec E1 { M.cc with e := true }
      M.cpu.a M.cpu.b M.cpu.dp M.cpu.x M.cpu.y M.cpu.u M.cpu.pc M.cpu.s
      hE1s hws hwx hwy hwu hwpc rfl hr12 hr11 hr10 hr9 hr8 hr7 hr6 hr5 hr4 hr3 hr2 hr1
    refine ⟨{ E1 with
        cpu := { E1.cpu with a := M.cpu.a, b := M.cpu.b, dp := M.cpu.dp,
                             x := M.cpu.x, y := M.cpu.y, u := M.cpu.u,
                             pc := M.cpu.pc, s := M.cpu.s },
        cc := { M.cc with e := true } }, ?_, rfl, rfl, rfl, rfl, rfl, rfl, rfl, rfl, rfl⟩
    rw [hstep0, hfetch, hrti]

/-- A demonstration register file used by concrete test machines. -/
def cpu_demo : cpu_state_t :=
  { cpu_state := (cpu_run_state_t.CPU_EXEC), last_pc := 0,
    x := 0x1234, y := 0x2345, u := 0x3456, s := 0x8000, pc := 0x1000,
    a := 0x11, b := 0x22, dp := 0x33,
    nmi_armed := false, nmi_latched := false, halt_asserted := false,
    reset_asserted := false, irq_asserted := false, firq_asserted := false }

/-- All-clear condition codes. -/
def cc_demo : cc_t :=
  { c := false, v := false, z := false, n := false,
    i := false, h := false, f := false, e := false }

/-- RAM image with the IRQ vector pointing at 0x2000 and an RTI op-code
(0x3b) there. -/
def irq_demo_mem : Mem := fun a =>
  if a = 0xfff8 then { data_byte := 0x20, memory_type := MemType.ram }
  else if a = 0x2000 then { data_byte := 0x3b, memory_type := MemType.ram }
  else { data_byte := 0, memory_type := MemType.ram }

/-- A machine about to take an IRQ whose handler is an immediate RTI. -/
def irq_demo : Machine :=
  { cpu := { cpu_demo with irq_asserted := true }, cc := cc_demo, mem := irq_demo_mem }

/-- Witness for `irq_entry_rti_round_trip` at the concrete machine
`irq_demo`. -/
theorem irq_entry_rti_round_trip_witness :
    ∃ R, cpu_step irq_demo = some R ∧
      R.cpu.a = 0x11 ∧ R.cpu.b = 0x22 ∧ R.cpu.dp = 0x33 ∧
      R.cpu.x = 0x1234 ∧ R.cpu.y = 0x2345 ∧ R.cpu.u = 0x3456 ∧
      R.cpu.s = 0x8000 ∧ R.cpu.pc = 0x1000 ∧
      R.cc = { cc_demo with e := true } := by
  have h := irq_entry_rti_round_trip irq_demo
    (by constructor <;> decide)
    rfl rfl rfl rfl (by decide) (Or.inr rfl)
    (by decide) (by decide) (by decide) (by decide) (by decide)
  obtain ⟨-, -, -, -, -, -, -, -, -, -, -, -, -, -, -, -, R, hR, ha, hb, hdp, hx, hy, hu, hs, hpc, hcc⟩ := h
  exact ⟨R, hR, ha, hb, hdp, hx, hy, hu, hs, hpc, hcc⟩

/-- C1 counterexample.  On `irq_demo` (a state with E clear, I clear and
the IRQ line asserted, whose handler is an immediate RTI), one `cpu_run()`
call takes the interrupt and runs the RTI: A, B, DP, X, Y, U, S and PC all
return to their pre-interrupt values, but CC does not: its E flag comes
back set (it was pushed forced to 1), refuting "restores ... and CC
exactly to their pre-interrupt values". -/
theorem irq_rti_cc_not_exact_counterexample :
    (cpu_step irq_demo).map (fun R => (R.cc.e, R.cpu.pc, R.cpu.s)) =
      some (true, 0x1000, 0x8000) ∧ irq_demo.cc.e = false ∧
    irq_demo.cc.i = false ∧ irq_demo.cpu.irq_asserted = true := by
  refine ⟨by decide, rfl, rfl, rfl⟩

/-- C2.  Reset postcondition: with the reset latch set, one `cpu_run()`
call returns the `CPU_RESET` state having set F and I, cleared DP,
disarmed NMI, and loaded PC from the big-endian vector at 0xFFFE/F. -/
theorem reset_step_postcondition (M : Machine)
    (hreset : M.cpu.reset_asserted = true) (hwf : MemWF M.mem) :
    cpu_step M = some (reset_service M) ∧
    (reset_service M).cpu.cpu_state = cpu_run_state_t.CPU_RESET ∧
    (reset_service M).cc.f = true ∧
    (reset_service M).cc.i = true ∧
    (reset_service M).cpu.dp = 0 ∧
    (reset_service M).cpu.nmi_armed = false ∧
    (reset_service M).cpu.pc = (rdByte M.mem 0xfffe <<< 8) + rdByte M.mem 0xffff := by
  refine ⟨?_, rfl, rfl, rfl, rfl, rfl, ?_⟩
  · unfold cpu_step
    rw [if_pos hreset]
  · show read_vector M.mem VEC_RESET = _
    have h1 : rdByte M.mem 0xfffe < 256 := hwf _
    have h2 : rdByte M.mem 0xffff < 256 := hwf _
    unfold read_vector VEC_RESET
    have h3 : (0xfffe : Nat) + 1 = 0xffff := by norm_num
    rw [h3, Nat.shiftLeft_eq]
    have h4 : (2 : Nat) ^ 8 = 256 := by norm_num
    rw [h4]
    omega

/-- A machine with the reset line latched. -/
def reset_demo : Machine :=
  { cpu := { cpu_demo with reset_asserted := true }, cc := cc_demo, mem := memZero }

/-- Witness for `reset_step_postcondition` at `reset_demo`. -/
theorem reset_step_postcondition_witness :
    cpu_step reset_demo = some (reset_service reset_demo) ∧
    (reset_service reset_demo).cpu.cpu_state = cpu_run_state_t.CPU_RESET ∧
    (reset_service reset_demo).cpu.pc = 0 := by
  have h := reset_step_postcondition reset_demo rfl
    (fun a => by show (0 : Nat) < 256; decide)
  exact ⟨h.1, h.2.1, by rw [h.2.2.2.2.2.2]; decide⟩

/-- A machine sitting in SYNC with the IRQ line asserted but masked
(CC.I = 1). -/
def sync_masked_demo : Machine :=
  { cpu := { cpu_demo with cpu_state := (cpu_run_state_t.CPU_SYNC), irq_asserted := true },
    cc := { cc_demo with i := true }, mem := memZero }

/-- C3 counterexample.  In SYNC with the IRQ line asserted but masked
by CC.I = 1, one `cpu_run()` call leaves the CPU in `CPU_SYNC` with PC
unchanged: it does not resume execution at the next instruction. -/
theorem sync_masked_irq_remains_sync_counterexample :
    (cpu_step sync_masked_demo).map (fun R => (R.cpu.cpu_state, R.cpu.pc)) =
      some ((cpu_run_state_t.CPU_SYNC), 0x1000) ∧
    sync_masked_demo.cpu.irq_asserted = true ∧
    sync_masked_demo.cc.i = true := by
  refine ⟨by decide, rfl, rfl⟩

/-- C3 (amended).  While in SYNC, an asserted but masked interrupt does
not wake the CPU: `cpu_run()` returns with the machine unchanged apart
from `last_pc`, still in `CPU_SYNC`; only an unmasked interrupt (or an
armed, latched NMI) proceeds to service and resumes execution. -/
theorem sync_masked_interrupt_stays (M : Machine)
    (hsync : M.cpu.cpu_state = cpu_run_state_t.CPU_SYNC)
    (hreset : M.cpu.reset_asserted = false) (hhalt : M.cpu.halt_asserted = false)
    (hnmi : ¬(M.cpu.nmi_armed = true ∧ M.cpu.nmi_latched = true))
    (hf : M.cpu.firq_asserted = true → M.cc.f = true)
    (hi : M.cpu.irq_asserted = true → M.cc.i = true) :
    cpu_step M = some { M with cpu := { M.cpu with last_pc := M.cpu.pc } } := by
  rw [cpu_step_no_reset_no_halt M hreset hhalt]
  rw [interrupt_check_none { M with cpu := { M.cpu with last_pc := M.cpu.pc } }
    hnmi hf hi]
  rw [if_pos hsync]

/-- Witness for `sync_masked_interrupt_stays` at `sync_masked_demo`. -/
theorem sync_masked_interrupt_stays_witness :
    cpu_step sync_masked_demo = some { sync_masked_demo with
      cpu := { sync_masked_demo.cpu with last_pc := sync_masked_demo.cpu.pc } } :=
  sync_masked_interrupt_stays sync_masked_demo rfl rfl rfl (by decide)
    (by decide) (fun _ => rfl)

/-- Modelled from the claim's words for C5: DAA "adds 0x06 to A exactly
when the low nibble is greater than 9 or H is set". -/
def daa_claim_low (a : Nat) (cc : cc_t) : Nat :=
  if a % 16 > 9 ∨ cc.h = true then 0x06 else 0

/-- Modelled from the claim's words for C5: DAA "adds 0x60 exactly once
when (high nibble > 8 and low nibble > 9) or high nibble > 9 or C". -/
def daa_claim_high (a : Nat) (cc : cc_t) : Nat :=
  if (a / 16 > 8 ∧ a % 16 > 9) ∨ a / 16 > 9 ∨ cc.c = true then 0x60 else 0

/-- Modelled from the claim's words for C5: the resulting accumulator. -/
def daa_claimC5 (a : Nat) (cc : cc_t) : Nat :=
  (a + daa_claim_low a cc + daa_claim_high a cc) % 256

/-- C5 counterexample.  At A = 0xAB with H = C = 0 both `+ 0x60`
branches of `daa()` fire (high nibble > 8 with low nibble > 9, and high
nibble > 9), so the code adds 0xC0, producing A = 0x71, while the claim
("adds 0x60 exactly once") predicts A = 0x11. -/
theorem daa_double_sixty_counterexample :
    (daa_fn 0xab cc_demo).1 = 0x71 ∧ daa_claimC5 0xab cc_demo = 0x11 ∧
    (0x71 : Nat) ≠ 0x11 := by
  refine ⟨by decide, by decide, by decide⟩

/-- The two independent `+ 0x60` adjustments actually performed by
`daa()`: one for (high nibble > 8 and low nibble > 9) and one more for
(high nibble > 9 or C); both can fire on the same input. -/
def daa_adjust_high2 (a : Nat) (cc : cc_t) : Nat :=
  (if a / 16 > 8 ∧ a % 16 > 9 then 0x60 else 0) +
  (if a / 16 > 9 ∨ cc.c = true then 0x60 else 0)

/-- C5 (amended).  `daa()` adds 0x06 exactly when the low nibble is
greater than 9 or H is set, then adds 0x60 once for each of the two
conditions (high > 8 and low > 9) and (high > 9 or C) that holds — both
may apply, adding 0xC0.  C is set from bit 8 of the corrected sum, Z and
N from its low byte, V is cleared, and H, I, F, E are untouched. -/
theorem daa_adjustment_rule (a : Nat) (ha : a < 256) (cc : cc_t) :
    (daa_fn a cc).1 = (a + daa_claim_low a cc + daa_adjust_high2 a cc) % 256 ∧
    (daa_fn a cc).2.c = decide (256 ≤ a + daa_claim_low a cc + daa_adjust_high2 a cc) ∧
    (daa_fn a cc).2.v = false ∧
    (daa_fn a cc).2.z = decide ((a + daa_claim_low a cc + daa_adjust_high2 a cc) % 256 = 0) ∧
    (daa_fn a cc).2.n = decide (128 ≤ (a + daa_claim_low a cc + daa_adjust_high2 a cc) % 256) ∧
    (daa_fn a cc).2.i = cc.i ∧ (daa_fn a cc).2.h = cc.h ∧
    (daa_fn a cc).2.f = cc.f ∧ (daa_fn a cc).2.e = cc.e := by
  have hl : a &&& 0x0f = a % 16 := land_0f a
  have hh : a &&& 0xf0 = a / 16 * 16 := land_f0_eq a ha
  have hc2 : (a / 16 * 16 > 0x80 ∧ a % 16 > 9) ↔ (a / 16 > 8 ∧ a % 16 > 9) := by omega
  have hc3 : (a / 16 * 16 > 0x90) ↔ (a / 16 > 9) := by omega
  simp only [daa_fn, daa_claim_low, daa_adjust_high2, hl, hh, hc2, hc3]
  refine ⟨?_, ?_, ?_, ?_, ?_, ?_, ?_, ?_, ?_⟩
  · split_ifs <;> omega
  · split_ifs <;>
      (apply decide_eq_decide.mpr; rw [land_bit8_small _ (by omega)] <;> omega)
  · first
    | trivial
    | rfl
  · split_ifs <;>
      (apply decide_eq_decide.mpr; rw [land_ff] <;> omega)
  · split_ifs <;>
      (apply decide_eq_decide.mpr; rw [land_bit7_small _ (by omega)] <;> omega)
  all_goals first
    | trivial
    | rfl

/-- Witness for `daa_adjustment_rule` at the spec's own test vector S2:
A = 0x9B, H = C = 0 gives A = 0x01 with C set and N = Z = 0. -/
theorem daa_adjustment_rule_witness :
    (0x9b : Nat) < 256 ∧
    (daa_fn 0x9b cc_demo).1 = 0x01 ∧ (daa_fn 0x9b cc_demo).2.c = true ∧
    (daa_fn 0x9b cc_demo).2.n = false ∧ (daa_fn 0x9b cc_demo).2.z = false := by
  have h := daa_adjustment_rule 0x9b (by decide) cc_demo
  exact ⟨by decide, by rw [h.1]; decide, by rw [h.2.1]; decide,
    by rw [h.2.2.2.2.1]; decide, by rw [h.2.2.2.1]; decide⟩

/-- Modelled from the claim's words for C6: "C from bit 7 of the
result". -/
def mul_claimC6_c (a b : Nat) : Bool := decide ((a * b) &&& 0x80 ≠ 0)

/-- C6 counterexample.  At A = 1, B = 0x80 the product is 0x0080: bit 7
of the result is set, so the claim predicts C = 1, but `eval_cc_c` tests
`value & 0x100` (bit 8) and the code leaves C = 0. -/
theorem mul_carry_bit_counterexample :
    (mul_fn 1 0x80 cc_demo).2.2.c = false ∧ mul_claimC6_c 1 0x80 = true := by
  refine ⟨by decide, by decide⟩

/-- C6 (amended).  MUL sets D to the 16-bit unsigned product (A high
byte, B low byte), Z from the full 16-bit result, and C from bit 8 of
the result (`eval_cc_c` tests `value & 0x100`), not bit 7; the other
flags are untouched. -/
theorem mul_semantics (a b : Nat) (ha : a < 256) (hb : b < 256) (cc : cc_t) :
    (mul_fn a b cc).1 = (a * b) / 256 ∧
    (mul_fn a b cc).2.1 = (a * b) % 256 ∧
    (mul_fn a b cc).2.2.z = decide (a * b = 0) ∧
    (mul_fn a b cc).2.2.c = decide ((a * b) / 256 % 2 = 1) ∧
    (mul_fn a b cc).2.2.n = cc.n ∧ (mul_fn a b cc).2.2.v = cc.v ∧
    (mul_fn a b cc).2.2.i = cc.i ∧ (mul_fn a b cc).2.2.h = cc.h ∧
    (mul_fn a b cc).2.2.f = cc.f ∧ (mul_fn a b cc).2.2.e = cc.e := by
  have hlt : a * b < 65536 := by
    calc a * b ≤ 255 * 255 := Nat.mul_le_mul (by omega) (by omega)
    _ < 65536 := by norm_num
  have h1 : (a * b) % 65536 = a * b := Nat.mod_eq_of_lt hlt
  simp only [mul_fn, h1]
  refine ⟨?_, ?_, ?_, ?_, ?_, ?_, ?_, ?_, ?_, ?_⟩
  · rw [Nat.shiftRight_eq_div_pow]
    have h2 : (2 : Nat) ^ 8 = 256 := by norm_num
    rw [h2]
    omega
  all_goals first
    | trivial
    | rfl
    | (apply decide_eq_decide.mpr; rw [land_ffff, h1])
    | (apply decide_eq_decide.mpr; rw [land_bit8 (a * b)])

/-- Witness for `mul_semantics` at A = 0x11, B = 0x22: D = 0x0242,
Z = 0, C = 0 (0x242 / 256 = 2, even). -/
theorem mul_semantics_witness :
    (0x11 : Nat) < 256 ∧ (0x22 : Nat) < 256 ∧
    (mul_fn 0x11 0x22 cc_demo).1 = 0x02 ∧
    (mul_fn 0x11 0x22 cc_demo).2.1 = 0x42 ∧
    (mul_fn 0x11 0x22 cc_demo).2.2.z = false ∧
    (mul_fn 0x11 0x22 cc_demo).2.2.c = false := by
  have h := mul_semantics 0x11 0x22 (by decide) (by decide) cc_demo
  exact ⟨by decide, by decide, h.1.trans (by decide), h.2.1.trans (by decide),
    h.2.2.1.trans (by decide), h.2.2.2.1.trans (by decide)⟩

/-- C7 counterexample.  `mem_read` at the out-of-range address 65536
returns `MEM_ADD_RANGE` (-1), not 0. -/
theorem mem_read_out_of_range_counterexample :
    mem_read memZero 65536 = MEM_ADD_RANGE ∧ MEM_ADD_RANGE ≠ (0 : Int) := by
  refine ⟨by decide, by decide⟩

/-- C7 (amended).  For every address outside 0..65535, `mem_read`
returns the error code `MEM_ADD_RANGE` (-1) rather than 0; for every
in-range address the read succeeds and returns the stored data byte. -/
theorem mem_read_range_behavior (m : Mem) (address : Int) :
    (address < 0 ∨ address > 65535 → mem_read m address = MEM_ADD_RANGE) ∧
    (0 ≤ address → address ≤ 65535 → mem_read m address
      = ((m address.toNat).data_byte : Int)) := by
  constructor
  · intro h
    unfold mem_read
    rw [if_pos]
    unfold MEMORY
    push_cast
    omega
  · intro h1 h2
    unfold mem_read
    rw [if_neg]
    unfold MEMORY
    push_cast
    omega

/-- Witness for `mem_read_range_behavior` at addresses 70000 (out of
range) and 5 (in range) on the all-zero memory. -/
theorem mem_read_range_behavior_witness :
    mem_read memZero 70000 = MEM_ADD_RANGE ∧ mem_read memZero 5 = 0 := by
  refine ⟨(mem_read_range_behavior memZero 70000).1 (Or.inr (by norm_num)), ?_⟩
  have h := (mem_read_range_behavior memZero 5).2 (by norm_num) (by norm_num)
  rw [h]
  decide

/-- C8 (code evaluated at the failing input).  `vdg_get_mode` at
sam_video_mode = 6 with the PIA graphics bit and ^A/INT bit clear falls
through every branch and yields UNDEFINED instead of the documented
SEMI_GRAPHICS_24: the arm that would return SEMI_GRAPHICS_24 repeats the
`sam_video_mode == 4` condition of the SEMI_GRAPHICS_12 arm and is
unreachable, as the second conjunct shows. -/
theorem vdg_mode_sam6_yields_undefined :
    vdg_get_mode 6 0 = some video_mode_t.UNDEFINED ∧
    vdg_get_mode 4 0 = some video_mode_t.SEMI_GRAPHICS_12 := by
  refine ⟨by decide, by decide⟩

/-- C9.  Keyboard make/break round trip: for every scan code with a
valid entry in the 81-entry table (row index not 255), starting from the
all-released state, injecting the make code and then the break code
returns all seven row bitmaps to 0xFF (and leaves the function-key latch
at 0). -/
theorem keyboard_make_break_round_trip : ∀ k, k < 81 →
    (scan_code_table.getD k (0xff, 255)).2 ≠ 255 →
    (pia_key_update keyboard_rows_init 0 k).bind
      (fun st => pia_key_update st.1 st.2 (k + 0x80)) =
      some (keyboard_rows_init, 0) := by
  decide

/-- Witness for `keyboard_make_break_round_trip` at scan code 30 (the A
key, row 2, column pattern 0b11111101). -/
theorem keyboard_make_break_round_trip_witness :
    ((30 : Nat) < 81 ∧ (scan_code_table.getD 30 (0xff, 255)).2 ≠ 255) ∧
    (pia_key_update keyboard_rows_init 0 30).bind
      (fun st => pia_key_update st.1 st.2 158) =
      some (keyboard_rows_init, 0) :=
  ⟨⟨by decide, by decide⟩, keyboard_make_break_round_trip 30 (by decide) (by decide)⟩

/-- C10.  Function-key latch invariant: a key event never changes a
non-zero latch (F1..F10 events update it only when it is 0), so the
latch changes value only from 0; `pia_function_key()` returns the
latched value and resets the latch to 0, so a second consecutive call
returns 0. -/
theorem function_key_latch_invariant :
    (∀ rows fk sc st, pia_key_update rows fk sc = some st → fk ≠ 0 → st.2 = fk) ∧
    (∀ rows fk sc st, pia_key_update rows fk sc = some st → st.2 ≠ fk → fk = 0) ∧
    (∀ fk, pia_function_key fk = (fk, 0)) ∧
    (∀ fk, (pia_function_key ((pia_function_key fk).2)).1 = 0) := by
  have key : ∀ rows fk sc st, pia_key_update rows fk sc = some st →
      st.2 = fk ∨ (fk = 0 ∧ st.2 = sc - SCAN_CODE_F1) := by
    intro rows fk sc st hup
    simp only [pia_key_update] at hup
    by_cases h1 : 59 ≤ sc ∧ sc ≤ 68
    · rw [if_pos h1] at hup
      simp only [Option.some.injEq] at hup
      subst hup
      by_cases hz : fk = 0
      · right
        exact ⟨hz, by simp [hz]⟩
      · left
        simp [hz]
    · rw [if_neg h1] at hup
      by_cases h2 : sc ≠ 0
      · rw [if_pos h2] at hup
        by_cases h3 : sc &&& 0x7f < 81
        · rw [if_pos h3] at hup
          by_cases h4 : (scan_code_table.getD (sc &&& 0x7f) (0xff, 255)).2 = 255
          · rw [if_pos h4] at hup
            exact Option.noConfusion hup
          · rw [if_neg h4] at hup
            by_cases h5 : sc &&& 0x80 ≠ 0
            · rw [if_pos h5] at hup
              simp only [Option.some.injEq] at hup
              subst hup
              left
              rfl
            · rw [if_neg h5] at hup
              simp only [Option.some.injEq] at hup
              subst hup
              left
              rfl
        · rw [if_neg h3] at hup
          exact Option.noConfusion hup
      · rw [if_neg h2] at hup
        simp only [Option.some.injEq] at hup
        subst hup
        left
        rfl
  refine ⟨?_, ?_, fun fk => rfl, fun fk => rfl⟩
  · intro rows fk sc st hup hfk
    rcases key rows fk sc st hup with h | ⟨h0, -⟩
    · exact h
    · exact absurd h0 hfk
  · intro rows fk sc st hup hne
    rcases key rows fk sc st hup with h | ⟨h0, -⟩
    · exact absurd h hne
    · exact h0

/-- Witness for `function_key_latch_invariant`: a non-zero latch (3)
survives an F2 key event (scan code 60), and the one-shot read returns
7 then 0. -/
theorem function_key_latch_invariant_witness :
    ((keyboard_rows_init, (3 : Nat)).2 = 3) ∧
    pia_function_key 7 = (7, 0) ∧
    (pia_function_key ((pia_function_key 7).2)).1 = 0 :=
  ⟨function_key_latch_invariant.1 keyboard_rows_init 3 60
      (keyboard_rows_init, 3) (by decide) (by decide),
    function_key_latch_invariant.2.2.1 7,
    function_key_latch_invariant.2.2.2 7⟩

/-- Frame addressing composes: the j-th byte below a stack pointer that
has already dropped 12 sits 12+j below the original one. -/
lemma stack_frame_addr_compose (s j : Nat) (hs : s < 65536) (h1 : 1 ≤ j) (h2 : j ≤ 12) :
    stack_frame_addr (stack_frame_addr s 12) j = stack_frame_addr s (12 + j) := by
  unfold stack_frame_addr
  interval_cases j <;> omega

/-- A frame address is a 16-bit value. -/
lemma stack_frame_addr_lt (s j : Nat) : stack_frame_addr s j < 65536 := by
  unfold stack_frame_addr
  omega

/-- Testing a single bit with a mask. -/
lemma land_two_pow_ne (x i : Nat) : (x &&& 2 ^ i ≠ 0) ↔ x.testBit i := by
  rw [Nat.and_two_pow]
  cases h : x.testBit i <;> simp

/-- Bit 4 of the packed condition codes is the I flag. -/
lemma get_cc_testBit4 : ∀ cc : cc_t, (get_cc cc).testBit 4 = cc.i := by
  intro cc
  obtain ⟨c, v, z, n, i, h, f, e⟩ := cc
  revert c v z n i h f e
  decide

/-- `cwai()` cannot set a clear I flag: ANDing CC with the operand and
forcing E leaves I clear when it was clear. -/
lemma cwai_i_clear (cc : cc_t) (hi : cc.i = false) (byte : Nat) :
    (set_cc ((get_cc cc &&& byte) ||| 0x80)).i = false := by
  show decide (((get_cc cc &&& byte) ||| 0x80) &&& 0x10 ≠ 0) = false
  rw [decide_eq_false_iff_not]
  intro hne
  have h16 : (0x10 : Nat) = 2 ^ 4 := by norm_num
  rw [h16, land_two_pow_ne] at hne
  rw [Nat.testBit_or, Nat.testBit_and, get_cc_testBit4, hi] at hne
  rw [show (0x80 : Nat).testBit 4 = false from by decide] at hne
  simp at hne

/-- Characterisation of `cwai()`: CC becomes (CC AND operand) OR 0x80,
the entire frame is pushed with that CC byte on top, S drops twelve, and
the CPU enters `CPU_SYNC`; registers, latches and memory attributes are
otherwise untouched. -/
lemma cwai_fn_spec (K : Machine) (byte : Nat)
    (hs : K.cpu.s < 65536)
    (hrom : ∀ j, 1 ≤ j → j ≤ 12 →
      (K.mem (stack_frame_addr K.cpu.s j)).memory_type ≠ MemType.rom) :
    (cwai_fn K byte).cpu = { K.cpu with
                             s := stack_frame_addr K.cpu.s 12
                             cpu_state := (cpu_run_state_t.CPU_SYNC) } ∧
    (cwai_fn K byte).cc = set_cc ((get_cc K.cc &&& byte) ||| 0x80) ∧
    (∀ x, ((cwai_fn K byte).mem x).memory_type = (K.mem x).memory_type) ∧
    (∀ x, (∀ j, 1 ≤ j → j ≤ 12 → x ≠ stack_frame_addr K.cpu.s j) →
      (cwai_fn K byte).mem x = K.mem x) ∧
    rdByte (cwai_fn K byte).mem (stack_frame_addr K.cpu.s 12)
      = ((get_cc K.cc &&& byte) ||| 0x80) % 256 := by
  have hspec := push_all_registers_spec
    { K with cc := set_cc ((get_cc K.cc &&& byte) ||| 0x80) }
    ((get_cc K.cc &&& byte) ||| 0x80) hs hrom
  obtain ⟨hcpu, hcc, htype, huntouched, r1, r2, r3, r4, r5, r6, r7, r8, r9, r10, r11, r12⟩ :=
    hspec
  simp only [cwai_fn]
  refine ⟨?_, ?_, htype, huntouched, r12⟩
  · rw [hcpu]
  · rw [hcc]

/-- Fetch dispatch when the op-code at PC is CWAI (0x3c): because the
op-code table marks CWAI as ADDR_INHERENT, `get_eff_addr()` leaves PC
alone and returns effective address 0, so the operand byte is read from
memory address 0. -/
lemma fetch_exec_cwai (K : Machine) (hop : rdByte K.mem K.cpu.pc = 0x3c) :
    fetch_exec K =
      some (cwai_fn { K with cpu := { K.cpu with pc := (K.cpu.pc + 1) % 65536 } }
        (rd8 { K with cpu := { K.cpu with pc := (K.cpu.pc + 1) % 65536 } }.mem 0)) := by
  simp only [fetch_exec, hop]
  norm_num

/-- Waking a machine: assert the IRQ line and record last_pc, as the top of
cpu_run does.  Projection facts stated over an opaque machine. -/
lemma wake_shape_cc (X : Machine) :
    ({ cpu_irq true X with
       cpu := { (cpu_irq true X).cpu with last_pc := (cpu_irq true X).cpu.pc } } : Machine).cc
      = X.cc := rfl

lemma wake_shape_mem (X : Machine) :
    ({ cpu_irq true X with
       cpu := { (cpu_irq true X).cpu with last_pc := (cpu_irq true X).cpu.pc } } : Machine).mem
      = X.mem := rfl

lemma wake_shape_s (X : Machine) :
    ({ cpu_irq true X with
       cpu := { (cpu_irq true X).cpu with last_pc := (cpu_irq true X).cpu.pc } } : Machine).cpu.s
      = X.cpu.s := rfl

lemma wake_shape_irq (X : Machine) :
    ({ cpu_irq true X with
       cpu := { (cpu_irq true X).cpu with last_pc := (cpu_irq true X).cpu.pc } } : Machine).cpu.irq_asserted
      = true := rfl

lemma wake_shape_nmiA (X : Machine) :
    ({ cpu_irq true X with
       cpu := { (cpu_irq true X).cpu with last_pc := (cpu_irq true X).cpu.pc } } : Machine).cpu.nmi_armed
      = X.cpu.nmi_armed := rfl

lemma wake_shape_nmiL (X : Machine) :
    ({ cpu_irq true X with
       cpu := { (cpu_irq true X).cpu with last_pc := (cpu_irq true X).cpu.pc } } : Machine).cpu.nmi_latched
      = X.cpu.nmi_latched := rfl

lemma wake_shape_firq (X : Machine) :
    ({ cpu_irq true X with
       cpu := { (cpu_irq true X).cpu with last_pc := (cpu_irq true X).cpu.pc } } : Machine).cpu.firq_asserted
      = X.cpu.firq_asserted := rfl

/-- C4 (amended).  Executing CWAI ANDs CC with its operand byte (read
from address 0, an artefact of the op-code table marking CWAI as
inherent), forces E = 1, pushes the full twelve-byte frame (S drops by
exactly 12), and enters SYNC.  When an IRQ is subsequently asserted and
serviced from this state, the service DOES push a second full frame
before loading PC from the vector: the stack pointer ends 24 bytes below
its original value, not 12. -/
theorem cwai_then_irq_service_repushes (M : Machine)
    (hwf : CpuWF M.cpu)
    (hreset : M.cpu.reset_asserted = false) (hhalt : M.cpu.halt_asserted = false)
    (hstate : M.cpu.cpu_state ≠ cpu_run_state_t.CPU_SYNC)
    (hnmi : ¬(M.cpu.nmi_armed = true ∧ M.cpu.nmi_latched = true))
    (hirq0 : M.cpu.irq_asserted = false) (hfirq0 : M.cpu.firq_asserted = false)
    (hi0 : M.cc.i = false)
    (hop : rdByte M.mem M.cpu.pc = 0x3c)
    (hrom24 : ∀ j, 1 ≤ j → j ≤ 24 →
      (M.mem (stack_frame_addr M.cpu.s j)).memory_type ≠ MemType.rom)
    (hvec1 : ∀ j, 1 ≤ j → j ≤ 24 → VEC_IRQ ≠ stack_frame_addr M.cpu.s j)
    (hvec2 : ∀ j, 1 ≤ j → j ≤ 24 → VEC_IRQ + 1 ≠ stack_frame_addr M.cpu.s j) :
    ∃ M1, cpu_step M = some M1 ∧
      M1.cpu.cpu_state = cpu_run_state_t.CPU_SYNC ∧
      M1.cpu.s = stack_frame_addr M.cpu.s 12 ∧
      M1.cc = set_cc ((get_cc M.cc &&& rd8 M.mem 0) ||| 0x80) ∧
      rdByte M1.mem (stack_frame_addr M.cpu.s 12)
        = ((get_cc M.cc &&& rd8 M.mem 0) ||| 0x80) % 256 ∧
      (interrupt_check { cpu_irq true M1 with
          cpu := { (cpu_irq true M1).cpu with last_pc := (cpu_irq true M1).cpu.pc } }
        = irq_service { cpu_irq true M1 with
          cpu := { (cpu_irq true M1).cpu with last_pc := (cpu_irq true M1).cpu.pc } }) ∧
      (irq_service { cpu_irq true M1 with
          cpu := { (cpu_irq true M1).cpu with last_pc := (cpu_irq true M1).cpu.pc } }).cpu.s
        = stack_frame_addr M.cpu.s 24 ∧
      (irq_service { cpu_irq true M1 with
          cpu := { (cpu_irq true M1).cpu with last_pc := (cpu_irq true M1).cpu.pc } }).cpu.pc
        = read_vector M.mem VEC_IRQ := by
  obtain ⟨hwx, hwy, hwu, hws, hwpc, hwa, hwb, hwdp⟩ := hwf
  set N : Machine := { M with cpu := { M.cpu with last_pc := M.cpu.pc } } with hN
  have hstep0 := cpu_step_no_reset_no_halt M hreset hhalt
  rw [← hN] at hstep0
  rw [interrupt_check_none N (by rw [hN]; exact hnmi)
    (by rw [hN]; intro hco; rw [hfirq0] at hco; exact absurd hco (by simp))
    (by rw [hN]; intro hco; rw [hirq0] at hco; exact absurd hco (by simp))] at hstep0
  rw [if_neg (by rw [hN]; exact hstate)] at hstep0
  set K : Machine := { N with cpu := { N.cpu with
    cpu_state := (cpu_run_state_t.CPU_EXEC) } } with hK
  have hopK : rdByte K.mem K.cpu.pc = 0x3c := by
    rw [hK, hN]
    exact hop
  rw [fetch_exec_cwai K hopK] at hstep0
  set K1 : Machine := { K with cpu := { K.cpu with pc := (K.cpu.pc + 1) % 65536 } } with hK1
  have hK1s : K1.cpu.s = M.cpu.s := by rw [hK1, hK, hN]
  have hK1cc : K1.cc = M.cc := by rw [hK1, hK, hN]
  have hK1mem : K1.mem = M.mem := by rw [hK1, hK, hN]
  have hbyte : rd8 K1.mem 0 = rd8 M.mem 0 := by rw [hK1mem]
  have hcwai := cwai_fn_spec K1 (rd8 K1.mem 0)
    (by rw [hK1s]; exact hws)
    (by simp only [hK1mem, hK1s]; intro j h1 h2; exact hrom24 j h1 (by omega))
  obtain ⟨hcpu1, hcc1, htype1, huntouched1, hccframe⟩ := hcwai
  simp only [hK1s, hK1cc] at hcpu1 hcc1 huntouched1
  refine ⟨cwai_fn K1 (rd8 K1.mem 0), hstep0, ?_, ?_, ?_, ?_, ?_⟩
  · rw [hcpu1]
  · rw [hcpu1]
  · rw [hcc1, hbyte]
  · rw [hbyte]
    exact hccframe
  · set M1 : Machine := cwai_fn K1 (rd8 K1.mem 0) with hM1
    set M2 : Machine := { cpu_irq true M1 with
      cpu := { (cpu_irq true M1).cpu with last_pc := (cpu_irq true M1).cpu.pc } } with hM2
    have hM2s : M2.cpu.s = stack_frame_addr M.cpu.s 12 := by
      rw [hM2, wake_shape_s M1, hcpu1]
    have hM2cc : M2.cc = set_cc ((get_cc M.cc &&& rd8 M.mem 0) ||| 0x80) := by
      rw [hM2, wake_shape_cc M1]
      exact hcc1
    have hM2mem : M2.mem = M1.mem := by rw [hM2, wake_shape_mem M1]
    have hM2i : M2.cc.i = false := by
      rw [hM2cc]
      exact cwai_i_clear M.cc hi0 _
    have hM2irq : M2.cpu.irq_asserted = true := by
      rw [hM2, wake_shape_irq M1]
    have hM2nmiA : M2.cpu.nmi_armed = M.cpu.nmi_armed := by
      rw [hM2, wake_shape_nmiA M1, hcpu1]
    have hM2nmiL : M2.cpu.nmi_latched = M.cpu.nmi_latched := by
      rw [hM2, wake_shape_nmiL M1, hcpu1]
    have hM2firq : M2.cpu.firq_asserted = false := by
      rw [hM2, wake_shape_firq M1, hcpu1]
      exact hfirq0
    have hic2 := interrupt_check_irq M2 hM2i hM2irq
      (by rw [hM2nmiA, hM2nmiL]; exact hnmi) (Or.inr hM2firq)
    have hcond1 : M2.cpu.s < 65536 := by
      rw [hM2s]
      exact stack_frame_addr_lt _ _
    have hcond2 : ∀ j, 1 ≤ j → j ≤ 12 →
        (M2.mem (stack_frame_addr M2.cpu.s j)).memory_type ≠ MemType.rom := by
      intro j h1 h2
      rw [hM2mem, hM2s, stack_frame_addr_compose M.cpu.s j hws h1 h2, hM1, htype1,
        hK1mem]
      exact hrom24 (12 + j) (by omega) (by omega)
    have hcond3 : ∀ j, 1 ≤ j → j ≤ 12 → VEC_IRQ ≠ stack_frame_addr M2.cpu.s j := by
      intro j h1 h2
      rw [hM2s, stack_frame_addr_compose M.cpu.s j hws h1 h2]
      exact hvec1 (12 + j) (by omega) (by omega)
    have hcond4 : ∀ j, 1 ≤ j → j ≤ 12 → VEC_IRQ + 1 ≠ stack_frame_addr M2.cpu.s j := by
      intro j h1 h2
      rw [hM2s, stack_frame_addr_compose M.cpu.s j hws h1 h2]
      exact hvec2 (12 + j) (by omega) (by omega)
    have hspec2 := irq_service_spec M2 hcond1 hcond2 hcond3 hcond4
    obtain ⟨hcpu2, -, -, huntouched2, -, -, -, -, -, -, -, -, -, -, -, -⟩ := hspec2
    refine ⟨hic2, ?_, ?_⟩
    · rw [hcpu2]
      show stack_frame_addr M2.cpu.s 12 = _
      rw [hM2s, stack_frame_addr_compose M.cpu.s 12 hws (by omega) (by omega)]
    · rw [hcpu2]
      show read_vector M2.mem VEC_IRQ = _
      rw [hM2mem, hM1]
      unfold read_vector rdByte
      rw [huntouched1 VEC_IRQ (fun j h1 h2 => hvec1 j h1 (by omega)),
        huntouched1 (VEC_IRQ + 1) (fun j h1 h2 => hvec2 j h1 (by omega)), hK1mem]

/-- RAM image with a CWAI op-code (0x3c) at 0x1000, the IRQ vector
pointing at 0x2000 and a SYNC op-code (0x13) there.  Address 0 (from
which CWAI's operand is fetched) holds 0x00. -/
def cwai_demo_mem : Mem := fun a =>
  if a = 0xfff8 then { data_byte := 0x20, memory_type := MemType.ram }
  else if a = 0x1000 then { data_byte := 0x3c, memory_type := MemType.ram }
  else if a = 0x2000 then { data_byte := 0x13, memory_type := MemType.ram }
  else { data_byte := 0, memory_type := MemType.ram }

/-- A machine about to execute CWAI at 0x1000 with S = 0x8000. -/
def cwai_demo : Machine :=
  { cpu := cpu_demo, cc := cc_demo, mem := cwai_demo_mem }

/-- Witness for `cwai_then_irq_service_repushes` at the concrete machine
`cwai_demo`. -/
theorem cwai_then_irq_service_repushes_witness :
    ∃ M1, cpu_step cwai_demo = some M1 ∧
      M1.cpu.cpu_state = cpu_run_state_t.CPU_SYNC ∧
      M1.cpu.s = stack_frame_addr cwai_demo.cpu.s 12 ∧
      M1.cc = set_cc ((get_cc cwai_demo.cc &&& rd8 cwai_demo.mem 0) ||| 0x80) ∧
      rdByte M1.mem (stack_frame_addr cwai_demo.cpu.s 12)
        = ((get_cc cwai_demo.cc &&& rd8 cwai_demo.mem 0) ||| 0x80) % 256 ∧
      (interrupt_check { cpu_irq true M1 with
          cpu := { (cpu_irq true M1).cpu with last_pc := (cpu_irq true M1).cpu.pc } }
        = irq_service { cpu_irq true M1 with
          cpu := { (cpu_irq true M1).cpu with last_pc := (cpu_irq true M1).cpu.pc } }) ∧
      (irq_service { cpu_irq true M1 with
          cpu := { (cpu_irq true M1).cpu with last_pc := (cpu_irq true M1).cpu.pc } }).cpu.s
        = stack_frame_addr cwai_demo.cpu.s 24 ∧
      (irq_service { cpu_irq true M1 with
          cpu := { (cpu_irq true M1).cpu with last_pc := (cpu_irq true M1).cpu.pc } }).cpu.pc
        = read_vector cwai_demo.mem VEC_IRQ :=
  cwai_then_irq_service_repushes cwai_demo
    (by constructor <;> decide)
    rfl rfl
    (by decide)
    (by decide)
    rfl rfl rfl
    (by decide)
    (by decide) (by decide) (by decide)

/-- C4 counterexample.  On `cwai_demo`, one `cpu_run()` executes the CWAI:
S drops from 0x8000 to 0x7ff4 (full frame pushed) and the CPU parks in
SYNC.  Asserting IRQ and calling `cpu_run()` again services the
interrupt, and S ends at 0x7fe8 = 0x8000 - 24: a second full frame was
pushed, refuting "does not push the registers again". -/
theorem cwai_irq_double_push_counterexample :
    (cpu_step cwai_demo).map (fun M1 => M1.cpu.s) = some 0x7ff4 ∧
    ((cpu_step cwai_demo).bind (fun M1 => cpu_step (cpu_irq true M1))).map
        (fun R => R.cpu.s) = some 0x7fe8 ∧
    (0x7fe8 : Nat) ≠ 0x8000 - 12 := by
  refine ⟨by decide, by decide, by decide⟩
